import Mathlib

/-!
Verification development for the `drivetest_scraper` repository.

The Python sources are shallowly embedded:
* pure string manipulation (`str.split`, `str.strip`, substring tests, the
  regular expressions of `_question_scraper.py`) is translated to executable
  functions on `List Char` / `String`;
* fallible Python code (raising exceptions) is translated to
  `Except PyExc _`;
* Python `dict`s are translated to association lists with
  insertion-order/overwrite semantics, Python `set`s to duplicate-free lists
  in insertion order (membership and cardinality are what matters);
* network and HTML-tree operations (`requests.get`, BeautifulSoup queries)
  are external collaborators and are modelled as explicit environment
  parameters supplying their results.
-/

deriving instance DecidableEq for Except

namespace Drivetest

/-- Python exception values relevant to this code base.  Each constructor
carries the message of the exception (`str(e)`). -/
inductive PyExc where
  | jsyksConnErr (msg : String)
  | jsyksContentErr (msg : String)
  | valueErr (msg : String)
  | keyErr (msg : String)
  | attrErr (msg : String)
  | indexErr (msg : String)
  | lookupErr (msg : String)
  | formatErr (msg : String)
deriving DecidableEq, Repr

/-- `str(e)`: the message carried by an exception. -/
def PyExc.msg : PyExc → String
  | .jsyksConnErr m => m
  | .jsyksContentErr m => m
  | .valueErr m => m
  | .keyErr m => m
  | .attrErr m => m
  | .indexErr m => m
  | .lookupErr m => m
  | .formatErr m => m

/-- The two failure kinds documented for the scraper component:
`JSYKSConnectionError` and `JSYKSContentRetrievalError`. -/
def PyExc.isExpected : PyExc → Bool
  | .jsyksConnErr _ => true
  | .jsyksContentErr _ => true
  | _ => false

/-! ## Modelled Python primitives -/

/-- Does `pat` occur at the very front of `s`? -/
def subAt : List Char → List Char → Bool
  | [], _ => true
  | _ :: _, [] => false
  | p :: ps, c :: cs => p == c && subAt ps cs

/-- Python `pat in s` (substring containment) for a pattern given as a
character list. -/
def hasSub (pat : List Char) : List Char → Bool
  | [] => subAt pat []
  | s@(_ :: cs) => subAt pat s || hasSub pat cs

/-- Python `s.split(sep)` for a single-character separator. -/
def pySplit (sep : Char) : List Char → List (List Char)
  | [] => [[]]
  | c :: cs =>
    let r := pySplit sep cs
    if c == sep then [] :: r
    else
      match r with
      | h :: t => (c :: h) :: t
      | [] => [[c]]

/-- Python `s.strip()` (whitespace stripped from both ends). -/
def pyStrip (s : List Char) : List Char :=
  ((s.dropWhile Char.isWhitespace).reverse.dropWhile Char.isWhitespace).reverse

/-- Decimal digit parser used to model Python `int(s)` on the digit strings
appearing in this code base (an optional leading `-` followed by one or more
digits; Python's `int` also tolerates surrounding whitespace and a leading
`+`, which never occur here). -/
def parseDigits : List Char → Option Nat
  | [] => none
  | cs => cs.foldl (fun acc c => match acc with
      | none => none
      | some n => if c.isDigit then some (n * 10 + (c.toNat - '0'.toNat)) else none)
      (some 0)

/-- Python `int(s)` (on the inputs that occur in this code base). -/
def pyInt : List Char → Option Int
  | '-' :: cs => (parseDigits cs).map (fun n => -(n : Int))
  | cs => (parseDigits cs).map (fun n => (n : Int))

/-- First value stored under a key in an association list (Python `d[k]`
lookup on a dict whose keys are unique). -/
def pyLookup {α β : Type} [BEq α] (l : List (α × β)) (k : α) : Option β :=
  (l.find? (fun p => p.1 == k)).map Prod.snd

/-- Python `d[k] = v` on a dict: overwrite in place if the key is present
(keeping its position), otherwise append. -/
def insertOverwrite {α β : Type} [BEq α] : List (α × β) → α → β → List (α × β)
  | [], k, v => [(k, v)]
  | (k', v') :: t, k, v =>
    if k' == k then (k', v) :: t else (k', v') :: insertOverwrite t k v

/-- Python `s.add(x)` on a set modelled as a duplicate-free list in insertion
order. -/
def pySetAdd {α : Type} [BEq α] (s : List α) (x : α) : List α :=
  if s.contains x then s else s ++ [x]

/-- Python `set(l)`: deduplicate, keeping first occurrences. -/
def pySetOf {α : Type} [BEq α] (l : List α) : List α :=
  l.foldl pySetAdd []

/-- Python `s.update(t)` on sets. -/
def pySetUnion {α : Type} [BEq α] (s t : List α) : List α :=
  t.foldl pySetAdd s

/-! ## `scraper/jsyks_scraper/_question_scraper.py` — string level

`QuestionScraper` hands the narrowed `<h1>` fragment around as a
BeautifulSoup node, but every decision below is taken on `str(sec)`, the raw
markup string; we embed those decisions as functions of that string. -/

/-- The marker `答案：<u>对</u>` as a character list. -/
def tfTrueMarker : List Char := "答案：<u>对</u>".data

/-- The marker `答案：<u>错</u>` as a character list. -/
def tfFalseMarker : List Char := "答案：<u>错</u>".data

/-- `QuestionScraper._is_tf`: a fragment is a true/false question iff its raw
markup contains `答案：<u>对</u>` or `答案：<u>错</u>`. -/
def isTf (raw : String) : Bool :=
  hasSub tfTrueMarker raw.data || hasSub tfFalseMarker raw.data

/-- Minimal-expansion search for the tail of the option regex
`(.*?)(?:</b>)?<br/>`: returns the matched body (the `.*?` group) and the
remainder of the input after the matched tail.  At each position the engine
first tries to consume `</b><br/>`, then `<br/>`, then extends the body by
one character — exactly Python's lazy-quantifier backtracking order. -/
def findBody : List Char → Option (List Char × List Char)
  | [] => none
  | s@(c :: cs) =>
    if subAt "</b><br/>".data s then some ([], s.drop 9)
    else if subAt "<br/>".data s then some ([], s.drop 5)
    else
      match findBody cs with
      | some (b, r) => some (c :: b, r)
      | none => none

/-- Is the character one of the option letters `A`–`D`? -/
def isOptLetter (c : Char) : Bool :=
  c == 'A' || c == 'B' || c == 'C' || c == 'D'

/-- Match `([A-D])、(.*?)(?:</b>)?<br/>` at the front of the input. -/
def matchCore : List Char → Option (Char × List Char × List Char)
  | l :: c :: rest =>
    if isOptLetter l && c == '、' then
      (findBody rest).map (fun p => (l, p.1, p.2))
    else none
  | _ => none

/-- Match the full option pattern `(?:<b>)?([A-D])、(.*?)(?:</b>)?<br/>` at
the front of the input (greedy optional `<b>` with backtracking). -/
def matchOptAt (s : List Char) : Option (Char × List Char × List Char) :=
  if subAt "<b>".data s then
    match matchCore (s.drop 3) with
    | some r => some r
    | none => matchCore s
  else matchCore s

/-- Fuelled left-to-right non-overlapping scan implementing
`re.findall(r'(?:<b>)?([A-D])、(.*?)(?:</b>)?<br/>', s)`:
on a match, resume after its end; otherwise advance one character.  Each step
consumes at least one character of the input, so fuel `s.length` (supplied by
`scan4c`) is always sufficient and the fuel never runs out. -/
def scanGo : Nat → List Char → List (Char × List Char)
  | 0, _ => []
  | _ + 1, [] => []
  | f + 1, s@(_ :: cs) =>
    match matchOptAt s with
    | some (l, b, r) => (l, b) :: scanGo f r
    | none => scanGo f cs

/-- All matches of the four-choice option pattern in the raw fragment, in
order, as (letter group, answer-text group) pairs. -/
def scan4c (raw : String) : List (Char × List Char) :=
  scanGo raw.data.length raw.data

/-- `QuestionScraper._extract_4c`: build the letter → answer dict from the
matches, stripping both groups; a repeated letter overwrites the earlier
value (Python dict assignment). -/
def extract4c (raw : String) : List (Char × String) :=
  (scan4c raw).foldl
    (fun d p => insertOverwrite d p.1 (String.mk (pyStrip p.2))) []

/-- The values of a dict, in key-insertion order (Python `d.values()`). -/
def dictValues {α β : Type} (d : List (α × β)) : List β :=
  d.map Prod.snd

/-- `QuestionScraper._get_ops`: true/false questions get the fixed set
`{"对", "错"}`; otherwise the set of values of the extracted letter → answer
dict. -/
def getOps (raw : String) : List String :=
  if isTf raw then ["对", "错"]
  else pySetOf (dictValues (extract4c raw))

/-- Match `答案：<u>([A-D])</u>` at the front of the input, returning the
letter group. -/
def matchAnsAt (s : List Char) : Option Char :=
  if subAt "答案：<u>".data s then
    match s.drop 6 with
    | l :: rest => if isOptLetter l && subAt "</u>".data rest then some l else none
    | [] => none
  else none

/-- `re.search(r'答案：<u>([A-D])</u>', s)`: first match, left to right. -/
def searchAnsLetter : List Char → Option Char
  | [] => none
  | s@(_ :: cs) =>
    match matchAnsAt s with
    | some l => some l
    | none => searchAnsLetter cs

/-- `QuestionScraper._get_ans`.  On the four-choice path the code calls
`match.group(1)` without a `None` check (an `AttributeError` when the search
fails) and indexes the dict with the letter (a `KeyError` when the letter was
never matched as an option); both surface as generic exceptions, not as
`JSYKSContentRetrievalError`. -/
def getAns (raw : String) : Except PyExc String :=
  if isTf raw then
    if hasSub tfTrueMarker raw.data then .ok "对"
    else if hasSub tfFalseMarker raw.data then .ok "错"
    else .error (.jsyksContentErr "Could not determine correct answer for T/F question")
  else
    match searchAnsLetter raw.data with
    | none => .error (.attrErr "NoneType object has no attribute group")
    | some l =>
      match pyLookup (extract4c raw) l with
      | some v => .ok v
      | none => .error (.keyErr (String.mk ['\'', l, '\'']))

/-! ## `data_storage/in_memory/question.py` (modelled)

The module itself is not under `src/`; only its tests
(`test/qb_test/question_test.py`) and its callers are.  It is modelled from
the spec below. -/

/-- Modelled from the spec: the in-memory `Question` value object of the
missing module `data_storage/in_memory/question.py` (spec §3/§4.1 and its
unit tests).  `answers` is a Python set, modelled as a duplicate-free list in
insertion order. -/
structure Question where
  qid : String
  question : String
  answers : List String
  correct_answer : String
  img_path : Option String
deriving DecidableEq, Repr

/-- Modelled from the spec: the validating factory (constructor) of the
missing in-memory `Question`.  Per spec §4.1 it fails with a format error
when the id or text is empty, when there are fewer than two unique non-empty
options, or when the correct answer is not among the options (its unit tests
exercise exactly these cases); otherwise the record is constructed.  Callers
pass `answers` as a Python set; the factory stores its deduplication. -/
def Question.make (qid question : String) (answers : List String)
    (correct : String) (img : Option String) : Except PyExc Question :=
  if qid = "" then .error (.formatErr "Question id must be a non-empty string.")
  else if question = "" then .error (.formatErr "Question text must be a non-empty string.")
  else if (pySetOf answers).length < 2 then .error (.formatErr "Question must have at least 2 answers.")
  else if (pySetOf answers).contains "" then .error (.formatErr "Answers must be non-empty strings.")
  else if ¬ (pySetOf answers).contains correct then .error (.formatErr "Correct answer must be one of the provided answers.")
  else .ok ⟨qid, question, pySetOf answers, correct, img⟩

/-! ## `QuestionScraper.get_question` -/

/-- The narrowed question fragment handed around by `QuestionScraper`: its
raw markup (`str(sec)`), together with the results of the two
BeautifulSoup-tree operations performed on it — `sec.find("a").get_text()`
(`_get_q_txt`, which raises if the tree query fails) and the `src` attribute
of the first `<img>` if any (`_extract_img_url`). -/
structure Fragment where
  raw : String
  qtxt : Except PyExc String
  imgSrc : Option String

/-- External collaborators of `QuestionScraper.get_question`: fetching and
narrowing the question page (`_format_url` + `_get_section`), and
downloading an image (`_download_img`, which returns the saved local path
`<img_dir>/<qid>.webp` or raises `JSYKSConnectionError`). -/
structure ScrapeEnv where
  fetchSection : String → Except PyExc Fragment
  downloadImg : String → String → Except PyExc String

/-- `QuestionScraper._get_img_path`: download the image if the fragment
references one, else no image. -/
def getImgPath (env : ScrapeEnv) (frag : Fragment) (qid : String) :
    Except PyExc (Option String) :=
  match frag.imgSrc with
  | some url => (env.downloadImg qid url).map some
  | none => .ok none

/-- The body of the `try` block of `QuestionScraper.get_question`, before
its exception handlers. -/
def getQuestionRaw (env : ScrapeEnv) (qid : String) : Except PyExc Question := do
  let frag ← env.fetchSection qid
  let txt ← frag.qtxt
  let answers := getOps frag.raw
  let correct ← getAns frag.raw
  let img ← getImgPath env frag qid
  Question.make qid txt answers correct img

/-- The exception handlers of `QuestionScraper.get_question`:
`JSYKSConnectionError` and `JSYKSContentRetrievalError` are re-raised
unchanged; every other exception is wrapped into
`JSYKSContentRetrievalError(f"Unexpected error: {str(e)}")`. -/
def pyWrap {α : Type} : Except PyExc α → Except PyExc α
  | .ok a => .ok a
  | .error (.jsyksConnErr m) => .error (.jsyksConnErr m)
  | .error (.jsyksContentErr m) => .error (.jsyksContentErr m)
  | .error e => .error (.jsyksContentErr ("Unexpected error: " ++ e.msg))

/-- `QuestionScraper.get_question`. -/
def getQuestion (env : ScrapeEnv) (qid : String) : Except PyExc Question :=
  pyWrap (getQuestionRaw env qid)

/-! ## `scraper/question.py` — the validating record classes

`Question.__init__` stores the fields and then calls the subclass's
`check_format`, which raises `IncorrectFormatError` on violation; a record is
obtained only when `check_format` passes. -/

/-- The fields of `scraper.question.Question` (`_qid`, `_question`,
`_answers`, `_correct_answer`, `_image_url`).  `answers` is a Python set,
modelled as a duplicate-free list. -/
structure SQuestion where
  qid : String
  question : String
  answers : List String
  correct_answer : String
  image_url : Option String
deriving DecidableEq, Repr

/-- `FourChoiceText.check_format`. -/
def FourChoiceText.check_format (q : SQuestion) : Except PyExc Unit :=
  if q.answers.length ≠ 4 then
    .error (.formatErr "FourChoiceQ must have exactly 4 answers.")
  else if ¬ q.answers.contains q.correct_answer then
    .error (.formatErr "Correct answer must be one of the provided answers.")
  else if q.image_url.isSome then
    .error (.formatErr "FourChoiceQ should not have an image URL.")
  else .ok ()

/-- `TwoChoiceText.check_format`. -/
def TwoChoiceText.check_format (q : SQuestion) : Except PyExc Unit :=
  if q.answers.length ≠ 2 then
    .error (.formatErr "TwoChoiceQ must have exactly 2 answers.")
  else if ¬ q.answers.contains q.correct_answer then
    .error (.formatErr "Correct answer must be one of the provided answers.")
  else .ok ()

/-- `FourChoiceImage.check_format`. -/
def FourChoiceImage.check_format (q : SQuestion) : Except PyExc Unit :=
  if q.answers.length ≠ 4 then
    .error (.formatErr "FourChoiceImage must have exactly 4 answers.")
  else if ¬ q.answers.contains q.correct_answer then
    .error (.formatErr "Correct answer must be one of the provided answers.")
  else if q.image_url.isNone then
    .error (.formatErr "FourChoiceImage must have an image URL.")
  else .ok ()

/-- `TwoChoiceImage.check_format`. -/
def TwoChoiceImage.check_format (q : SQuestion) : Except PyExc Unit :=
  if q.answers.length ≠ 2 then
    .error (.formatErr "TwoChoiceImage must have exactly 2 answers.")
  else if ¬ q.answers.contains q.correct_answer then
    .error (.formatErr "Correct answer must be one of the provided answers.")
  else if q.image_url.isNone then
    .error (.formatErr "TwoChoiceImage must have an image URL.")
  else .ok ()

/-- `Question.__init__` specialized to a subclass's `check_format`: store
the fields, run the check, and yield the record only if the check passes.
Python callers pass `answers` as a set; it is stored deduplicated. -/
def mkSQuestion (check : SQuestion → Except PyExc Unit)
    (qid question : String) (answers : List String) (correct : String)
    (img : Option String) : Except PyExc SQuestion :=
  let q : SQuestion := ⟨qid, question, pySetOf answers, correct, img⟩
  (check q).map (fun _ => q)

/-- `FourChoiceText(...)` construction. -/
def FourChoiceText.make (qid question : String) (answers : List String)
    (correct : String) (img : Option String) : Except PyExc SQuestion :=
  mkSQuestion FourChoiceText.check_format qid question answers correct img

/-- `TwoChoiceText(...)` construction. -/
def TwoChoiceText.make (qid question : String) (answers : List String)
    (correct : String) (img : Option String) : Except PyExc SQuestion :=
  mkSQuestion TwoChoiceText.check_format qid question answers correct img

/-- `FourChoiceImage(...)` construction. -/
def FourChoiceImage.make (qid question : String) (answers : List String)
    (correct : String) (img : Option String) : Except PyExc SQuestion :=
  mkSQuestion FourChoiceImage.check_format qid question answers correct img

/-- `TwoChoiceImage(...)` construction. -/
def TwoChoiceImage.make (qid question : String) (answers : List String)
    (correct : String) (img : Option String) : Except PyExc SQuestion :=
  mkSQuestion TwoChoiceImage.check_format qid question answers correct img

/-! ## `scraper/jsyks_scraper/_qid_scraper.py` -/

/-- An `<a>` tag as `QidScraper` observes it: its string content and its
(possibly absent) `href` attribute. -/
structure Anchor where
  text : String
  href : Option String
deriving DecidableEq, Repr

/-- `QidScraper._extract_urls` (purely in terms of the page-bar anchors and
the base URL).  It locates the last-page link (the anchor whose string is
`尾页`, else the second-to-last anchor, Python's `a_s[-2]`, which raises
`IndexError` on a shorter list), splits the href on `_` into exactly three
parts (`ValueError` otherwise), parses the page count with `int`
(`ValueError` on failure; `get('href')` returning `None` gives an
`AttributeError` at `split`), and synthesizes the page URLs
`{base}_{code}_{i}` for `i = 1 .. page_count`. -/
def extract_urls (base_url : String) (bar : List Anchor) :
    Except PyExc (List String) := do
  let lastPageUrl ←
    match bar.find? (fun a => a.text == "尾页") with
    | some a => pure a.href
    | none =>
      if h : 2 ≤ bar.length then
        pure (bar.get ⟨bar.length - 2, by omega⟩).href
      else .error (.indexErr "list index out of range")
  match lastPageUrl with
  | none => .error (.attrErr "NoneType object has no attribute split")
  | some u =>
    match pySplit '_' u.data with
    | [_, code, pc] =>
      match pyInt pc with
      | some n =>
        .ok ((List.range n.toNat).map
          (fun i => base_url ++ "_" ++ String.mk code ++ "_" ++ toString (i + 1)))
      | none =>
        .error (.valueErr ("invalid literal for int() with base 10: " ++ String.mk pc))
    | parts =>
      .error (.valueErr (if parts.length < 3 then
        "not enough values to unpack (expected 3)"
      else "too many values to unpack (expected 3)"))

/-- The id computation applied by `QidScraper._extract_qid` to one
anchor's href attribute: `url.split('/')[2].split('.')[0]`
(`a.get('href')` may be `None` — an `AttributeError` at `split` — and a
href with fewer than three `/`-separated parts raises `IndexError`). -/
def qidOfHref : Option String → Except PyExc String
  | none => .error (.attrErr "NoneType object has no attribute split")
  | some u =>
    match (pySplit '/' u.data).get? 2 with
    | none => .error (.indexErr "list index out of range")
    | some seg => .ok (String.mk (pySplit '.' seg).headI)

/-- `QidScraper._extract_qid`: for every anchor of the question-list
section, take `href.split('/')[2].split('.')[0]` and add it to the set. -/
def extract_qid (anchors : List Anchor) : Except PyExc (List String) :=
  anchors.foldlM (fun qids a => (qidOfHref a.href).map (pySetAdd qids)) []

/-- The mutable state of a `QidScraper` (its `__init__` leaves the maps
empty and `_connected = False`; the configuration supplies `_base_url`). -/
structure QidState where
  base_url : String
  connected : Bool
  chapters : List (Nat × String)
  chapt_to_chapturl : List (Nat × String)
  chapt_to_urls : List (Nat × List String)
deriving DecidableEq, Repr

/-- `QidScraper.__init__`: empty maps, not connected. -/
def QidState.init (base_url : String) : QidState :=
  ⟨base_url, false, [], [], []⟩

/-- External collaborators of `QidScraper`:
* `chapterEntries` — the combined result of `_extract_chapter_section` and
  `_extract_chapters` on the menu page: the parsed
  `(chapter number, description, chapter href)` entries, or the exception
  either step raised;
* `pageBar` — fetching a chapter URL and narrowing to its pagination bar
  (`JSYKSConnectionError` on a non-2xx status);
* `qidSection` — `_get_qid_section`, which can only raise
  `JSYKSConnectionError` (modelled by a `String`-error `Except` carrying the
  connection-error message) and otherwise yields the anchors of the
  question-list section. -/
structure QidEnv where
  chapterEntries : Except PyExc (List (Nat × String × String))
  pageBar : String → Except PyExc (List Anchor)
  qidSection : String → Except String (List Anchor)

/-- `QidScraper.connect`: store the chapter map and chapter-URL map, derive
every chapter's page URLs (`_set_up_urls` + `_extract_urls`), and only then
set `_connected = True`. -/
def qidConnect (env : QidEnv) (st : QidState) : Except PyExc QidState := do
  let entries ← env.chapterEntries
  let chapters := entries.foldl (fun d e => insertOverwrite d e.1 e.2.1) st.chapters
  let churls := entries.foldl (fun d e => insertOverwrite d e.1 e.2.2) st.chapt_to_chapturl
  let urls ← (chapters.map Prod.fst).foldlM (fun acc n => do
      match pyLookup churls n with
      | none => Except.error (PyExc.keyErr (toString n))
      | some cu => do
        let bar ← env.pageBar cu
        let us ← extract_urls st.base_url bar
        pure (insertOverwrite acc n us))
    st.chapt_to_urls
  pure { st with connected := true, chapters := chapters,
                 chapt_to_chapturl := churls, chapt_to_urls := urls }

/-- The message of the not-connected guard of `get_chapters` and
`get_chapter_to_qids`. -/
def notConnectedMsg : String := "Not connected to jsyks site. Call connect() first."

/-- `QidScraper.get_chapters`. -/
def get_chapters (st : QidState) : Except PyExc (List (Nat × String)) :=
  if ¬ st.connected then .error (.jsyksContentErr notConnectedMsg)
  else .ok st.chapters

/-- The inner loop of `get_chapter_to_qids` for one chapter: starting from
the empty set, fetch every page URL of the chapter and union in the
extracted ids. -/
def chapterQids (env : QidEnv) (urls : List String) :
    Except PyExc (List String) :=
  urls.foldlM (fun s url => do
      match env.qidSection url with
      | .error m => Except.error (PyExc.jsyksConnErr m)
      | .ok anchors => do
        let new ← extract_qid anchors
        pure (pySetUnion s new))
    []

/-- `QidScraper.get_chapter_to_qids`: for every chapter, union the question
ids extracted from every one of its page URLs. -/
def get_chapter_to_qids (env : QidEnv) (st : QidState) :
    Except PyExc (List (Nat × List String)) :=
  if ¬ st.connected then .error (.jsyksContentErr notConnectedMsg)
  else
    (st.chapters.map Prod.fst).foldlM (fun acc n => do
      match pyLookup st.chapt_to_urls n with
      | none => Except.error (PyExc.keyErr (toString n))
      | some urls => do
        let qids ← chapterQids env urls
        pure (insertOverwrite acc n qids))
      []

/-! ## `data_storage/in_memory/question_bank.py` (modelled)

Like the in-memory `Question`, the `QuestionBank` module is not under
`src/`; it is modelled from the spec (§3/§4.2) and its unit tests
(`test/qb_test/question_bank_test.py`). -/

/-- Modelled from the spec: the in-memory `QuestionBank` of the missing
module `data_storage/in_memory/question_bank.py` — an image directory plus
three mappings: chapter number → description, chapter number → set of
question ids, and question id → record. -/
structure QuestionBank where
  img_dir : String
  chapters : List (Nat × String)
  chap_num_to_ids : List (Nat × List String)
  id_to_q : List (String × Question)
deriving DecidableEq, Repr

/-- Modelled from the spec: `QuestionBank(img_dir)` starts empty. -/
def QuestionBank.empty (img_dir : String) : QuestionBank :=
  ⟨img_dir, [], [], []⟩

/-- Modelled from the spec: `get_img_dir`. -/
def QuestionBank.get_img_dir (qb : QuestionBank) : String :=
  qb.img_dir

/-- Update the value stored under a key of an association list. -/
def updateAssoc {α β : Type} [BEq α] (l : List (α × β)) (k : α) (f : β → β) :
    List (α × β) :=
  l.map (fun p => if p.1 == k then (p.1, f p.2) else p)

/-- Modelled from the spec: `add_chapter` fails on a duplicate chapter
number (its unit test expects a `ValueError`), otherwise inserts the
description and an empty id set. -/
def QuestionBank.add_chapter (qb : QuestionBank) (n : Nat) (desc : String) :
    Except PyExc QuestionBank :=
  if (pyLookup qb.chapters n).isSome then
    .error (.valueErr ("Chapter " ++ toString n ++ " already exists."))
  else .ok { qb with chapters := qb.chapters ++ [(n, desc)],
                     chap_num_to_ids := qb.chap_num_to_ids ++ [(n, [])] }

/-- Modelled from the spec: `add_question` fails with a `KeyError` when the
chapter is unknown (per its unit test); a second insertion of an id already
in the bank is treated as an error (the policy the spec's open question asks
implementers to fix); otherwise the record is stored under its id and the id
is registered in the chapter's id set. -/
def QuestionBank.add_question (qb : QuestionBank) (q : Question) (n : Nat) :
    Except PyExc QuestionBank :=
  if (pyLookup qb.chapters n).isNone then
    .error (.keyErr (toString n))
  else if (pyLookup qb.id_to_q q.qid).isSome then
    .error (.valueErr ("Question " ++ q.qid ++ " already exists."))
  else .ok { qb with id_to_q := qb.id_to_q ++ [(q.qid, q)],
                     chap_num_to_ids := updateAssoc qb.chap_num_to_ids n
                       (fun l => pySetAdd l q.qid) }

/-- Modelled from the spec: `describe_chapter` (a `LookupError` when the
chapter is absent, per its unit test). -/
def QuestionBank.describe_chapter (qb : QuestionBank) (n : Nat) :
    Except PyExc String :=
  match pyLookup qb.chapters n with
  | some d => .ok d
  | none => .error (.lookupErr ("Chapter " ++ toString n ++ " not found."))

/-- Modelled from the spec: `get_qids_by_chapter`. -/
def QuestionBank.get_qids_by_chapter (qb : QuestionBank) (n : Nat) :
    Except PyExc (List String) :=
  match pyLookup qb.chap_num_to_ids n with
  | some l => .ok l
  | none => .error (.lookupErr ("Chapter " ++ toString n ++ " not found."))

/-- Modelled from the spec: `get_question`. -/
def QuestionBank.get_question (qb : QuestionBank) (k : String) :
    Except PyExc Question :=
  match pyLookup qb.id_to_q k with
  | some q => .ok q
  | none => .error (.lookupErr ("Question " ++ k ++ " not found."))

/-- Modelled from the spec: `get_all_chapter_num` returns the chapter
numbers in ascending order (its unit test checks `[1, 2, 3]`). -/
def QuestionBank.get_all_chapter_num (qb : QuestionBank) : List Nat :=
  (qb.chapters.map Prod.fst).insertionSort (· ≤ ·)

/-! ## `data_storage/database/local_json_db.py` -/

/-- One entry of the `questions` dict written by
`LocalJsonDB._serialize_question_bank`. -/
structure SerializedQ where
  qid : String
  question : String
  answers : List String
  correct_answer : String
  img_path : String
deriving DecidableEq, Repr

/-- The JSON document produced by `_serialize_question_bank`.  JSON object
keys are strings, so the Python code stores chapter keys as `str(chap_num)`
and parses them back with `int(chap_num_str)`; since `int ∘ str` is the
identity on these integer keys, the keys are modelled as the integers
themselves. -/
structure SerializedBank where
  chapters : List (Nat × String)
  chap_to_qids : List (Nat × List String)
  questions : List (String × SerializedQ)
  img_dir : String
deriving DecidableEq, Repr

/-- `LocalJsonDB._make_img_path`: the database image directory string
concatenated directly with the question id — no path separator, no file
extension. -/
def makeImgPath (db_img_dir : String) (q : Question) : String :=
  db_img_dir ++ q.qid

/-- The `q_data` dict built for one question by
`_serialize_question_bank`. -/
def serQ (db_img_dir : String) (q : Question) : SerializedQ :=
  ⟨q.qid, q.question, q.answers, q.correct_answer, makeImgPath db_img_dir q⟩

/-- `LocalJsonDB._serialize_question_bank`. -/
def serializeBank (db_img_dir : String) (qb : QuestionBank) :
    Except PyExc SerializedBank :=
  qb.get_all_chapter_num.foldlM (fun acc n => do
      let desc ← qb.describe_chapter n
      let qids ← qb.get_qids_by_chapter n
      let qs ← qids.foldlM (fun qs k => do
          let q ← qb.get_question k
          pure (insertOverwrite qs k (serQ db_img_dir q)))
        acc.questions
      pure { acc with chapters := insertOverwrite acc.chapters n desc,
                      chap_to_qids := insertOverwrite acc.chap_to_qids n qids,
                      questions := qs })
    ⟨[], [], [], db_img_dir⟩

/-- The chapter-membership search of `_deserialize_question_bank`: the
first chapter whose id list contains the question id, else `None`. -/
def findChapterFor (lst : List (Nat × List String)) (k : String) : Option Nat :=
  (lst.find? (fun p => p.2.contains k)).map Prod.fst

/-- `LocalJsonDB._deserialize_question_bank`: an empty `chapters` mapping
yields an empty bank; otherwise the chapters are re-added in order and each
serialized question is rebuilt through the validating `Question` constructor
and added to the first chapter whose id list contains it (questions whose id
is in no chapter's list are silently skipped). -/
def deserializeBank (db_img_dir : String) (d : SerializedBank) :
    Except PyExc QuestionBank :=
  if d.chapters.isEmpty then .ok (QuestionBank.empty db_img_dir)
  else do
    let qb ← d.chapters.foldlM (fun b p => b.add_chapter p.1 p.2)
      (QuestionBank.empty db_img_dir)
    let qb ← d.questions.foldlM (fun b p =>
        match findChapterFor d.chap_to_qids p.1 with
        | none => pure b
        | some n => do
          let q ← Question.make p.2.qid p.2.question p.2.answers
            p.2.correct_answer (some p.2.img_path)
          b.add_question q n)
      qb
    return qb

/-- Serialize then deserialize, as one database round trip
(`save` followed by `load` on the same `LocalJsonDB`). -/
def roundTrip (db_img_dir : String) (qb : QuestionBank) :
    Except PyExc QuestionBank :=
  (serializeBank db_img_dir qb).bind (deserializeBank db_img_dir)

/-! ## `scraper/jsyks_scraper/jsyks_scraper.py` -/

/-- `JSYKSScraper.fill_question_bank`, given the result of
`self.qid_scraper.get_chapters()` (a chapter number → description map) and
the per-question scraper `self.question_scraper.get_question`.  The loop
header `for chapter_num, (chapter_desc, qids) in chapters.items()`
tuple-unpacks each description string into two one-character strings — a
`ValueError` unless the description has exactly two characters; when it has
exactly two, the first character becomes the chapter description and the
single character of the second is iterated as the chapter's only question
id.  Failures of `get_question`/`add_question` for one question are logged
and skipped; `add_chapter` failures and the unpacking `ValueError`
propagate. -/
def fillQuestionBank (getQ : String → Except PyExc Question)
    (chapters : List (Nat × String)) (qb0 : QuestionBank) :
    Except PyExc QuestionBank :=
  chapters.foldlM (fun qb p =>
    match p.2.data with
    | [d, qs] => do
      let qb ← qb.add_chapter p.1 (String.mk [d])
      pure (match (do
          let q ← getQ (String.mk [qs])
          qb.add_question q p.1) with
        | .ok qb' => qb'
        | .error _ => qb)
    | cs =>
      .error (.valueErr (if cs.length < 2 then
        "not enough values to unpack (expected 2, got " ++ toString cs.length ++ ")"
      else "too many values to unpack (expected 2)")))
    qb0

/-! ## Lemmas about the modelled Python primitives -/

theorem contains_eq_true_iff {α : Type} [BEq α] [LawfulBEq α]
    (s : List α) (x : α) : s.contains x = true ↔ x ∈ s :=
  List.elem_iff

theorem contains_eq_false_iff {α : Type} [BEq α] [LawfulBEq α]
    (s : List α) (x : α) : s.contains x = false ↔ x ∉ s := by
  rw [← Bool.not_eq_true, not_iff_not]
  exact List.elem_iff

theorem mem_pySetAdd {α : Type} [BEq α] [LawfulBEq α] (s : List α) (x y : α) :
    y ∈ pySetAdd s x ↔ y ∈ s ∨ y = x := by
  unfold pySetAdd
  cases hc : s.contains x with
  | true =>
    have hx : x ∈ s := (contains_eq_true_iff s x).mp hc
    simp only [if_true]
    constructor
    · exact Or.inl
    · rintro (hy | rfl)
      · exact hy
      · exact hx
  | false =>
    simp only [Bool.false_eq_true, if_false, List.mem_append, List.mem_singleton]

theorem nodup_pySetAdd {α : Type} [BEq α] [LawfulBEq α] (s : List α) (x : α)
    (h : s.Nodup) : (pySetAdd s x).Nodup := by
  unfold pySetAdd
  cases hc : s.contains x with
  | true => simpa using h
  | false =>
    have hx : x ∉ s := (contains_eq_false_iff s x).mp hc
    simp only [Bool.false_eq_true, if_false]
    simpa [List.nodup_append] using ⟨h, hx⟩

theorem pySetAdd_of_not_mem {α : Type} [BEq α] [LawfulBEq α] (s : List α)
    (x : α) (h : x ∉ s) : pySetAdd s x = s ++ [x] := by
  unfold pySetAdd
  rw [(contains_eq_false_iff s x).mpr h]
  simp

theorem mem_pySetUnion {α : Type} [BEq α] [LawfulBEq α] (s t : List α) (y : α) :
    y ∈ pySetUnion s t ↔ y ∈ s ∨ y ∈ t := by
  induction t generalizing s with
  | nil => simp [pySetUnion]
  | cons a t ih =>
    show y ∈ pySetUnion (pySetAdd s a) t ↔ _
    rw [ih, mem_pySetAdd]
    constructor
    · rintro ((h | rfl) | h) <;> simp_all
    · rintro (h | h)
      · exact Or.inl (Or.inl h)
      · rcases List.mem_cons.mp h with rfl | h
        · exact Or.inl (Or.inr rfl)
        · exact Or.inr h

theorem nodup_pySetUnion {α : Type} [BEq α] [LawfulBEq α] (s t : List α)
    (h : s.Nodup) : (pySetUnion s t).Nodup := by
  induction t generalizing s with
  | nil => simpa [pySetUnion]
  | cons a t ih => exact ih _ (nodup_pySetAdd _ _ h)

theorem nodup_pySetOf {α : Type} [BEq α] [LawfulBEq α] (l : List α) :
    (pySetOf l).Nodup :=
  nodup_pySetUnion [] l List.nodup_nil

theorem mem_pySetOf {α : Type} [BEq α] [LawfulBEq α] (l : List α) (y : α) :
    y ∈ pySetOf l ↔ y ∈ l := by
  have h : pySetOf l = pySetUnion [] l := rfl
  rw [h, mem_pySetUnion]
  simp

theorem pySetUnion_of_disjoint {α : Type} [BEq α] [LawfulBEq α] :
    ∀ (l s : List α), l.Nodup → (∀ x ∈ l, x ∉ s) → pySetUnion s l = s ++ l := by
  intro l
  induction l with
  | nil => intro s _ _; simp [pySetUnion]
  | cons a t ih =>
    intro s hnd hdisj
    have ha : a ∉ s := hdisj a (by simp)
    show pySetUnion (pySetAdd s a) t = _
    rw [pySetAdd_of_not_mem s a ha]
    have ht : t.Nodup := (List.nodup_cons.mp hnd).2
    have hat : a ∉ t := (List.nodup_cons.mp hnd).1
    rw [ih (s ++ [a]) ht (fun x hx => by
      simp only [List.mem_append, List.mem_singleton]
      rintro (hxs | rfl)
      · exact hdisj x (by simp [hx]) hxs
      · exact hat hx)]
    simp

theorem pySetOf_of_nodup {α : Type} [BEq α] [LawfulBEq α] (l : List α)
    (h : l.Nodup) : pySetOf l = l := by
  have heq : pySetOf l = pySetUnion [] l := rfl
  rw [heq, pySetUnion_of_disjoint l [] h (by simp)]
  simp

theorem pyLookup_nil {α β : Type} [BEq α] (k : α) :
    pyLookup ([] : List (α × β)) k = none := rfl

theorem pyLookup_cons {α β : Type} [BEq α] (p : α × β) (l : List (α × β)) (k : α) :
    pyLookup (p :: l) k = if p.1 == k then some p.2 else pyLookup l k := by
  unfold pyLookup
  rw [List.find?_cons]
  cases h : p.1 == k <;> simp [h]

theorem pyLookup_append {α β : Type} [BEq α] (l₁ l₂ : List (α × β)) (k : α) :
    pyLookup (l₁ ++ l₂) k =
      match pyLookup l₁ k with
      | some v => some v
      | none => pyLookup l₂ k := by
  induction l₁ with
  | nil => simp [pyLookup_nil]
  | cons p t ih =>
    rw [List.cons_append, pyLookup_cons, pyLookup_cons]
    cases h : p.1 == k <;> simp [h, ih]

theorem pyLookup_eq_none_iff {α β : Type} [BEq α] [LawfulBEq α]
    (l : List (α × β)) (k : α) :
    pyLookup l k = none ↔ k ∉ l.map Prod.fst := by
  induction l with
  | nil => simp [pyLookup_nil]
  | cons p t ih =>
    rw [pyLookup_cons]
    cases h : p.1 == k with
    | true =>
      have : p.1 = k := by simpa using h
      simp [this]
    | false =>
      have : p.1 ≠ k := by simpa using h
      simp only [Bool.false_eq_true, if_false, ih, List.map_cons, List.mem_cons]
      constructor
      · intro hn
        rintro (rfl | hm)
        · exact this rfl
        · exact hn hm
      · intro hn hm
        exact hn (Or.inr hm)

theorem pyLookup_isSome_iff {α β : Type} [BEq α] [LawfulBEq α]
    (l : List (α × β)) (k : α) :
    (pyLookup l k).isSome = true ↔ k ∈ l.map Prod.fst := by
  constructor
  · intro h
    by_contra hk
    rw [← pyLookup_eq_none_iff] at hk
    rw [hk] at h
    cases h
  · intro h
    cases hl : pyLookup l k with
    | some v => rfl
    | none => exact absurd ((pyLookup_eq_none_iff l k).mp hl) (by simp [h])

theorem insertOverwrite_of_fresh {α β : Type} [BEq α] [LawfulBEq α]
    (l : List (α × β)) (k : α) (v : β) (h : pyLookup l k = none) :
    insertOverwrite l k v = l ++ [(k, v)] := by
  induction l with
  | nil => rfl
  | cons p t ih =>
    rw [pyLookup_cons] at h
    unfold insertOverwrite
    cases hk : p.1 == k with
    | true => simp [hk] at h
    | false =>
      simp only [Bool.false_eq_true, if_false, List.cons_append, List.cons.injEq, true_and]
      exact ih (by simpa [hk] using h)

theorem pyLookup_map_mem {α β : Type} [BEq α] [LawfulBEq α]
    (L : List α) (f : α → β) (m : α) (h : m ∈ L) :
    pyLookup (L.map (fun n => (n, f n))) m = some (f m) := by
  induction L with
  | nil => cases h
  | cons a t ih =>
    rw [List.map_cons, pyLookup_cons]
    rcases List.mem_cons.mp h with rfl | hm
    · simp
    · cases ha : a == m with
      | true =>
        have : a = m := by simpa using ha
        simp [this]
      | false => simpa [ha] using ih hm

theorem pyLookup_map_not_mem {α β : Type} [BEq α] [LawfulBEq α]
    (L : List α) (f : α → β) (m : α) (h : m ∉ L) :
    pyLookup (L.map (fun n => (n, f n))) m = none := by
  rw [pyLookup_eq_none_iff]
  simpa using h

theorem updateAssoc_comp {α β : Type} [BEq α] [LawfulBEq α]
    (l : List (α × β)) (k : α) (f g : β → β) :
    updateAssoc (updateAssoc l k f) k g = updateAssoc l k (fun b => g (f b)) := by
  unfold updateAssoc
  rw [List.map_map]
  apply List.map_congr_left
  intro p _
  cases h : p.1 == k <;> simp [h]

theorem updateAssoc_map_of_nodup {α β : Type} [BEq α] [LawfulBEq α]
    [DecidableEq α] (L : List α) (g : α → β) (k : α) (f : β → β) :
    updateAssoc (L.map (fun n => (n, g n))) k f =
      L.map (fun n => (n, if n = k then f (g n) else g n)) := by
  unfold updateAssoc
  rw [List.map_map]
  apply List.map_congr_left
  intro n _
  cases h : n == k with
  | true =>
    have : n = k := by simpa using h
    simp [this]
  | false =>
    have hne : n ≠ k := by simpa using h
    simp [h, hne]

theorem updateAssoc_id_of_absent {α β : Type} [BEq α] [LawfulBEq α]
    (l : List (α × β)) (k : α) (f : β → β) (h : k ∉ l.map Prod.fst) :
    updateAssoc l k f = l := by
  unfold updateAssoc
  conv_rhs => rw [← List.map_id l]
  apply List.map_congr_left
  intro p hp
  cases hk : p.1 == k with
  | true =>
    have he : p.1 = k := by simpa using hk
    exact absurd (he ▸ List.mem_map_of_mem Prod.fst hp) h
  | false => simp [hk]

/-! ## Claim C4 — true/false classification and answer extraction -/

/-- C4 (counterexample): the claim says a fragment containing the marker
`答案：<u>错</u>` gets correct answer `错`; but `_get_ans` tests for the
`对` marker first, so a fragment containing both markers is classified
true/false yet gets answer `对`, not `错`. -/
theorem c4_counterexample :
    hasSub tfFalseMarker "答案：<u>对</u>答案：<u>错</u>".data = true ∧
    isTf "答案：<u>对</u>答案：<u>错</u>" = true ∧
    getAns "答案：<u>对</u>答案：<u>错</u>" = .ok "对" ∧
    ("对" : String) ≠ "错" := by decide

/-- C4 (amended): a fragment containing `答案：<u>对</u>` or
`答案：<u>错</u>` is classified true/false with options exactly
`{对, 错}`; the extracted correct answer is `对` when the `对` marker is
present and `错` when the `错` marker is present without the `对` marker
(`对` takes precedence when both occur); a fragment containing neither
marker is classified four-choice. -/
theorem c4_amended (raw : String) :
    (hasSub tfTrueMarker raw.data = true ∨ hasSub tfFalseMarker raw.data = true →
      isTf raw = true ∧ getOps raw = ["对", "错"]) ∧
    (hasSub tfTrueMarker raw.data = true → getAns raw = .ok "对") ∧
    (hasSub tfFalseMarker raw.data = true → hasSub tfTrueMarker raw.data = false →
      getAns raw = .ok "错") ∧
    (hasSub tfTrueMarker raw.data = false → hasSub tfFalseMarker raw.data = false →
      isTf raw = false) := by
  unfold isTf getOps getAns isTf
  refine ⟨?_, ?_, ?_, ?_⟩
  · rintro (h | h) <;> simp [h]
  · intro h
    simp [h]
  · intro h hf
    simp [h, hf]
  · intro h hf
    simp [h, hf]

/-- C4 (witness): the amended theorem applied to one fragment per case. -/
theorem c4_witness :
    (isTf "x答案：<u>对</u>" = true ∧ getOps "x答案：<u>对</u>" = ["对", "错"]) ∧
    getAns "x答案：<u>对</u>" = .ok "对" ∧
    getAns "y答案：<u>错</u>" = .ok "错" ∧
    isTf "A、a<br/>B、b<br/>" = false :=
  ⟨(c4_amended "x答案：<u>对</u>").1 (Or.inl (by decide)),
   (c4_amended "x答案：<u>对</u>").2.1 (by decide),
   (c4_amended "y答案：<u>错</u>").2.2.1 (by decide) (by decide),
   (c4_amended "A、a<br/>B、b<br/>").2.2.2 (by decide) (by decide)⟩

/-! ## Claim C3 — validating record construction (`scraper/question.py`) -/

/-- Explicit case form of `FourChoiceText` construction. -/
theorem fourChoiceText_make_eq (qid txt : String) (ans : List String)
    (c : String) (img : Option String) :
    FourChoiceText.make qid txt ans c img =
      (if (pySetOf ans).length ≠ 4 then
        .error (.formatErr "FourChoiceQ must have exactly 4 answers.")
      else if ¬ (pySetOf ans).contains c then
        .error (.formatErr "Correct answer must be one of the provided answers.")
      else if img.isSome then
        .error (.formatErr "FourChoiceQ should not have an image URL.")
      else .ok ⟨qid, txt, pySetOf ans, c, img⟩) := by
  unfold FourChoiceText.make mkSQuestion FourChoiceText.check_format
  split_ifs <;> simp_all [Except.map]

/-- Explicit case form of `TwoChoiceText` construction. -/
theorem twoChoiceText_make_eq (qid txt : String) (ans : List String)
    (c : String) (img : Option String) :
    TwoChoiceText.make qid txt ans c img =
      (if (pySetOf ans).length ≠ 2 then
        .error (.formatErr "TwoChoiceQ must have exactly 2 answers.")
      else if ¬ (pySetOf ans).contains c then
        .error (.formatErr "Correct answer must be one of the provided answers.")
      else .ok ⟨qid, txt, pySetOf ans, c, img⟩) := by
  unfold TwoChoiceText.make mkSQuestion TwoChoiceText.check_format
  split_ifs <;> simp_all [Except.map]

/-- Explicit case form of `FourChoiceImage` construction. -/
theorem fourChoiceImage_make_eq (qid txt : String) (ans : List String)
    (c : String) (img : Option String) :
    FourChoiceImage.make qid txt ans c img =
      (if (pySetOf ans).length ≠ 4 then
        .error (.formatErr "FourChoiceImage must have exactly 4 answers.")
      else if ¬ (pySetOf ans).contains c then
        .error (.formatErr "Correct answer must be one of the provided answers.")
      else if img.isNone then
        .error (.formatErr "FourChoiceImage must have an image URL.")
      else .ok ⟨qid, txt, pySetOf ans, c, img⟩) := by
  unfold FourChoiceImage.make mkSQuestion FourChoiceImage.check_format
  split_ifs <;> simp_all [Except.map]

/-- Explicit case form of `TwoChoiceImage` construction. -/
theorem twoChoiceImage_make_eq (qid txt : String) (ans : List String)
    (c : String) (img : Option String) :
    TwoChoiceImage.make qid txt ans c img =
      (if (pySetOf ans).length ≠ 2 then
        .error (.formatErr "TwoChoiceImage must have exactly 2 answers.")
      else if ¬ (pySetOf ans).contains c then
        .error (.formatErr "Correct answer must be one of the provided answers.")
      else if img.isNone then
        .error (.formatErr "TwoChoiceImage must have an image URL.")
      else .ok ⟨qid, txt, pySetOf ans, c, img⟩) := by
  unfold TwoChoiceImage.make mkSQuestion TwoChoiceImage.check_format
  split_ifs <;> simp_all [Except.map]

/-- C3 (counterexample): the claim says construction with an empty id, empty
text, or an empty-string option raises `FormatError`; but
`FourChoiceText.check_format` only checks the option count, the membership
of the correct answer and the absence of an image, so a record with empty
id, empty text and an empty-string option is constructed without error. -/
theorem c3_counterexample :
    FourChoiceText.make "" "" ["", "b", "c", "d"] "b" none =
      .ok ⟨"", "", ["", "b", "c", "d"], "b", none⟩ := by decide

/-- C3 (amended): every record constructed through one of the four
validating classes satisfies `correct_option ∈ options` and
`|options| = 4` (the `FourChoice` classes) or `|options| = 2` (the
`TwoChoice` classes), and a construction violating the count or the
membership condition raises `IncorrectFormatError` (so no record exists in
such a state); empty ids, texts, or empty-string options are not checked
and do not raise. -/
theorem c3_amended (qid txt : String) (ans : List String) (c : String)
    (img : Option String) :
    (∀ q, FourChoiceText.make qid txt ans c img = .ok q →
      q.answers.contains q.correct_answer = true ∧ q.answers.length = 4) ∧
    (∀ q, TwoChoiceText.make qid txt ans c img = .ok q →
      q.answers.contains q.correct_answer = true ∧ q.answers.length = 2) ∧
    (∀ q, FourChoiceImage.make qid txt ans c img = .ok q →
      q.answers.contains q.correct_answer = true ∧ q.answers.length = 4) ∧
    (∀ q, TwoChoiceImage.make qid txt ans c img = .ok q →
      q.answers.contains q.correct_answer = true ∧ q.answers.length = 2) ∧
    ((pySetOf ans).length ≠ 4 →
      FourChoiceText.make qid txt ans c img =
        .error (.formatErr "FourChoiceQ must have exactly 4 answers.") ∧
      FourChoiceImage.make qid txt ans c img =
        .error (.formatErr "FourChoiceImage must have exactly 4 answers.")) ∧
    ((pySetOf ans).length ≠ 2 →
      TwoChoiceText.make qid txt ans c img =
        .error (.formatErr "TwoChoiceQ must have exactly 2 answers.") ∧
      TwoChoiceImage.make qid txt ans c img =
        .error (.formatErr "TwoChoiceImage must have exactly 2 answers.")) ∧
    ((pySetOf ans).contains c = false →
      ∀ q, FourChoiceText.make qid txt ans c img ≠ .ok q ∧
        TwoChoiceText.make qid txt ans c img ≠ .ok q ∧
        FourChoiceImage.make qid txt ans c img ≠ .ok q ∧
        TwoChoiceImage.make qid txt ans c img ≠ .ok q) := by
  have h1 := fourChoiceText_make_eq qid txt ans c img
  have h2 := twoChoiceText_make_eq qid txt ans c img
  have h3 := fourChoiceImage_make_eq qid txt ans c img
  have h4 := twoChoiceImage_make_eq qid txt ans c img
  rw [h1, h2, h3, h4]
  refine ⟨?_, ?_, ?_, ?_, ?_, ?_, ?_⟩ <;> split_ifs <;> simp_all

/-- C3 (witness): the amended theorem applied at concrete constructions,
one per conjunct. -/
theorem c3_witness :
    ((⟨"q", "t", ["a", "b", "c", "d"], "a", none⟩ : SQuestion).answers.contains
        (⟨"q", "t", ["a", "b", "c", "d"], "a", none⟩ : SQuestion).correct_answer = true ∧
      (⟨"q", "t", ["a", "b", "c", "d"], "a", none⟩ : SQuestion).answers.length = 4) ∧
    ((⟨"q", "t", ["x", "y"], "x", none⟩ : SQuestion).answers.contains
        (⟨"q", "t", ["x", "y"], "x", none⟩ : SQuestion).correct_answer = true ∧
      (⟨"q", "t", ["x", "y"], "x", none⟩ : SQuestion).answers.length = 2) ∧
    ((⟨"q", "t", ["a", "b", "c", "d"], "a", some "u"⟩ : SQuestion).answers.contains
        (⟨"q", "t", ["a", "b", "c", "d"], "a", some "u"⟩ : SQuestion).correct_answer = true ∧
      (⟨"q", "t", ["a", "b", "c", "d"], "a", some "u"⟩ : SQuestion).answers.length = 4) ∧
    ((⟨"q", "t", ["x", "y"], "x", some "u"⟩ : SQuestion).answers.contains
        (⟨"q", "t", ["x", "y"], "x", some "u"⟩ : SQuestion).correct_answer = true ∧
      (⟨"q", "t", ["x", "y"], "x", some "u"⟩ : SQuestion).answers.length = 2) ∧
    (FourChoiceText.make "q" "t" ["x", "y"] "x" none =
        .error (.formatErr "FourChoiceQ must have exactly 4 answers.") ∧
      FourChoiceImage.make "q" "t" ["x", "y"] "x" none =
        .error (.formatErr "FourChoiceImage must have exactly 4 answers.")) ∧
    (TwoChoiceText.make "q" "t" ["a", "b", "c", "d"] "a" none =
        .error (.formatErr "TwoChoiceQ must have exactly 2 answers.") ∧
      TwoChoiceImage.make "q" "t" ["a", "b", "c", "d"] "a" none =
        .error (.formatErr "TwoChoiceImage must have exactly 2 answers.")) ∧
    ¬ FourChoiceText.make "q" "t" ["a", "b", "c", "d"] "z" none =
        .ok ⟨"q", "t", ["a", "b", "c", "d"], "z", none⟩ :=
  ⟨(c3_amended "q" "t" ["a", "b", "c", "d"] "a" none).1 _ (by decide),
   (c3_amended "q" "t" ["x", "y"] "x" none).2.1 _ (by decide),
   (c3_amended "q" "t" ["a", "b", "c", "d"] "a" (some "u")).2.2.1 _ (by decide),
   (c3_amended "q" "t" ["x", "y"] "x" (some "u")).2.2.2.1 _ (by decide),
   (c3_amended "q" "t" ["x", "y"] "x" none).2.2.2.2.1 (by decide),
   (c3_amended "q" "t" ["a", "b", "c", "d"] "a" none).2.2.2.2.2.1 (by decide),
   ((c3_amended "q" "t" ["a", "b", "c", "d"] "z" none).2.2.2.2.2.2 (by decide)
     ⟨"q", "t", ["a", "b", "c", "d"], "z", none⟩).1⟩

/-! ## Claim C6 — `get_question` exposes only the two documented failure kinds -/

/-- C6: every error observable from `QuestionScraper.get_question` is a
`JSYKSConnectionError` or a `JSYKSContentRetrievalError`; the two expected
kinds raised by any sub-step are re-raised unchanged, and any other
exception is wrapped into a `JSYKSContentRetrievalError` carrying the
original exception's message. -/
theorem c6_only_documented_failures (env : ScrapeEnv) (qid : String) :
    (∀ e, getQuestion env qid = .error e → e.isExpected = true) ∧
    (∀ m, getQuestionRaw env qid = .error (.jsyksConnErr m) →
      getQuestion env qid = .error (.jsyksConnErr m)) ∧
    (∀ m, getQuestionRaw env qid = .error (.jsyksContentErr m) →
      getQuestion env qid = .error (.jsyksContentErr m)) ∧
    (∀ e, e.isExpected = false → getQuestionRaw env qid = .error e →
      getQuestion env qid = .error (.jsyksContentErr ("Unexpected error: " ++ e.msg))) := by
  unfold getQuestion
  refine ⟨?_, ?_, ?_, ?_⟩
  · intro e
    cases hr : getQuestionRaw env qid with
    | ok q => intro h; cases h
    | error e' =>
      cases e' <;> intro h <;> cases h <;> rfl
  · intro m h
    rw [h]
    rfl
  · intro m h
    rw [h]
    rfl
  · intro e he h
    rw [h]
    cases e <;> first | rfl | cases he

/-- C6 (witness): concrete environments exercising each wrapping case. -/
theorem c6_witness :
    getQuestion ⟨fun _ => .error (.attrErr "boom"), fun _ _ => .ok "p"⟩ "q" =
      .error (.jsyksContentErr "Unexpected error: boom") ∧
    getQuestion ⟨fun _ => .error (.jsyksConnErr "down"), fun _ _ => .ok "p"⟩ "q" =
      .error (.jsyksConnErr "down") ∧
    getQuestion ⟨fun _ => .error (.jsyksContentErr "bad markup"), fun _ _ => .ok "p"⟩ "q" =
      .error (.jsyksContentErr "bad markup") ∧
    (PyExc.jsyksContentErr "Unexpected error: boom").isExpected = true :=
  ⟨(c6_only_documented_failures ⟨fun _ => .error (.attrErr "boom"), fun _ _ => .ok "p"⟩ "q").2.2.2
      (.attrErr "boom") (by decide) (by decide),
   (c6_only_documented_failures ⟨fun _ => .error (.jsyksConnErr "down"), fun _ _ => .ok "p"⟩ "q").2.1
      "down" (by decide),
   (c6_only_documented_failures ⟨fun _ => .error (.jsyksContentErr "bad markup"), fun _ _ => .ok "p"⟩ "q").2.2.1
      "bad markup" (by decide),
   (c6_only_documented_failures ⟨fun _ => .error (.attrErr "boom"), fun _ _ => .ok "p"⟩ "q").1
      (.jsyksContentErr "Unexpected error: boom") (by decide)⟩

/-! ## Claim C1 — four-choice option extraction performs no count check -/

/-- The fragment of the C1 counterexample: five matches of the option
pattern (a duplicated `A`), so the match count is 5 ≠ 4, while the letter
set is `{A, B, C, D}` only after the dict collapses the duplicate. -/
def c1raw : String :=
  "A、甲<br/>A、乙<br/>B、丙<br/>C、丁<br/>D、戊<br/>答案：<u>A</u>"

/-- Environment delivering the C1 counterexample fragment for every id. -/
def c1env : ScrapeEnv :=
  ⟨fun _ => .ok ⟨c1raw, .ok "这是题目", none⟩,
   fun _ _ => .error (.jsyksConnErr "unused")⟩

/-- C1 (counterexample): the claim says that a match count other than 4
makes extraction fail with `ContentFormatError` and that `extract(id)` then
never yields a record; but on a fragment with five letter-option matches
`get_question` succeeds and yields a question built from the four collapsed
options — no error is raised at all. -/
theorem c1_counterexample :
    isTf c1raw = false ∧
    (scan4c c1raw).length = 5 ∧
    getQuestion c1env "q1" =
      .ok ⟨"q1", "这是题目", ["乙", "丙", "丁", "戊"], "乙", none⟩ := by
  refine ⟨by decide, by decide, by decide⟩

/-- C1 (amended): for a fragment not classified as true/false, option
extraction itself never fails — `_get_ops` returns the deduplicated values
of whatever letter → answer pairs the pattern matched, with no check of the
match count or the letter set; the four-choice path fails only in answer
resolution, exactly when the `答案：<u>X</u>` search fails or the underlined
letter is not a key of the extracted dict, and that failure is a generic
exception (not one of the two `JSYKS` error classes raised by this
extractor). -/
theorem c1_amended (raw : String) (h : isTf raw = false) :
    getOps raw = pySetOf (dictValues (extract4c raw)) ∧
    ((getAns raw).isOk = true ↔
      ∃ l v, searchAnsLetter raw.data = some l ∧
        pyLookup (extract4c raw) l = some v) ∧
    (∀ l v, searchAnsLetter raw.data = some l →
      pyLookup (extract4c raw) l = some v → getAns raw = .ok v) ∧
    (∀ e, getAns raw = .error e → e.isExpected = false) := by
  unfold getOps getAns
  rw [h]
  refine ⟨by simp, ?_, ?_, ?_⟩
  · cases hs : searchAnsLetter raw.data with
    | none => simp [hs, Except.isOk, Except.toBool]
    | some l =>
      cases hl : pyLookup (extract4c raw) l with
      | none => simp [hs, hl, Except.isOk, Except.toBool]
      | some v => simp [hs, hl, Except.isOk, Except.toBool]
  · intro l v hs hl
    simp [hs, hl]
  · intro e
    cases hs : searchAnsLetter raw.data with
    | none =>
      simp only [hs, Bool.false_eq_true, if_false]
      intro he
      injection he with h2
      rw [← h2]
      rfl
    | some l =>
      cases hl : pyLookup (extract4c raw) l with
      | none =>
        simp only [hs, hl, Bool.false_eq_true, if_false]
        intro he
        injection he with h2
        rw [← h2]
        rfl
      | some v =>
        simp only [hs, hl, Bool.false_eq_true, if_false]
        intro he
        cases he

/-- C1 (witness): the amended theorem applied to a fragment with three
option matches — a count the claim says must be rejected, yet the pipeline
resolves the answer normally. -/
theorem c1_witness :
    getOps "A、a<br/>B、b<br/>C、c<br/>答案：<u>A</u>" =
      pySetOf (dictValues (extract4c "A、a<br/>B、b<br/>C、c<br/>答案：<u>A</u>")) ∧
    getAns "A、a<br/>B、b<br/>C、c<br/>答案：<u>A</u>" = .ok "a" :=
  ⟨(c1_amended "A、a<br/>B、b<br/>C、c<br/>答案：<u>A</u>" (by decide)).1,
   (c1_amended "A、a<br/>B、b<br/>C、c<br/>答案：<u>A</u>" (by decide)).2.2.1
     'A' "a" (by decide) (by decide)⟩

/-! ## Claim C2 — orchestrator failure isolation -/

/-- A discovered chapter map as `QidScraper.get_chapters` actually returns
it: chapter number → description string. -/
def c2chapters : List (Nat × String) := [(1, "道路交通安全法律、法规和规章")]

/-- C2 (failing input): `fill_question_bank` tuple-unpacks each chapter
*description* returned by `get_chapters` as if it were a `(description,
id-set)` pair, so any chapter whose description is not exactly two
characters long aborts the whole run with a `ValueError` before a single
question of that chapter is attempted — regardless of the question scraper
and of the starting bank. -/
theorem c2_code_bug (getQ : String → Except PyExc Question) (qb0 : QuestionBank) :
    fillQuestionBank getQ c2chapters qb0 =
      .error (.valueErr "too many values to unpack (expected 2)") := rfl

/-! ## Claim C5 — pagination URL synthesis -/

/-- C5: with an explicit last-page link (`尾页`), or otherwise from the
second-to-last anchor of the page bar, the href's `_<code>_<n>` suffix
determines the last page number `n`, and exactly `n` page URLs
`<base>_<code>_1 .. <base>_<code>_n` are synthesized in ascending order. -/
theorem c5_pagination_urls (base : String) (bar : List Anchor)
    (pre code ds : List Char) (n : Nat) (a : Anchor) (u : String) :
    (bar.find? (fun x => x.text == "尾页") = some a → a.href = some u →
      pySplit '_' u.data = [pre, code, ds] → pyInt ds = some (Int.ofNat n) →
      extract_urls base bar = .ok ((List.range n).map
        (fun i => base ++ "_" ++ String.mk code ++ "_" ++ toString (i + 1)))) ∧
    (bar.find? (fun x => x.text == "尾页") = none →
      ∀ hlen : 2 ≤ bar.length,
      bar.get ⟨bar.length - 2, by omega⟩ = a → a.href = some u →
      pySplit '_' u.data = [pre, code, ds] → pyInt ds = some (Int.ofNat n) →
      extract_urls base bar = .ok ((List.range n).map
        (fun i => base ++ "_" ++ String.mk code ++ "_" ++ toString (i + 1)))) := by
  constructor
  · intro hfind hhref hsplit hint
    unfold extract_urls
    rw [hfind]
    simp [hhref, hsplit, hint]
  · intro hfind hlen hget hhref hsplit hint
    unfold extract_urls
    rw [hfind]
    simp only [dif_pos hlen]
    rw [hget]
    simp [hhref, hsplit, hint]

/-- The page bar of the spec's pagination example: an explicit last-page
link whose href ends in `_1502_12`. -/
def c5bar : List Anchor :=
  [⟨"1", some "/kmy_1502_1"⟩, ⟨"2", some "/kmy_1502_2"⟩,
   ⟨"尾页", some "/kmy_1502_12"⟩]

/-- A page bar without a `尾页` link: the second-to-last anchor (the last
one being the next-page control) carries the last page number. -/
def c5bar2 : List Anchor :=
  [⟨"1", some "/kmy_1502_1"⟩, ⟨"2", some "/kmy_1502_2"⟩,
   ⟨"下一页", some "/kmy_1502_2"⟩]

/-- C5 (witness): both strategies applied at concrete page bars; the
explicit-last-page case reproduces the spec's `_1502_12 → 12 URLs`
example. -/
theorem c5_witness :
    extract_urls "base" c5bar = .ok ((List.range 12).map
      (fun i => "base" ++ "_" ++ String.mk "1502".data ++ "_" ++ toString (i + 1))) ∧
    extract_urls "base" c5bar2 = .ok ((List.range 2).map
      (fun i => "base" ++ "_" ++ String.mk "1502".data ++ "_" ++ toString (i + 1))) ∧
    (List.range 12).map
      (fun i => "base" ++ "_" ++ String.mk "1502".data ++ "_" ++ toString (i + 1)) =
      ["base_1502_1", "base_1502_2", "base_1502_3", "base_1502_4",
       "base_1502_5", "base_1502_6", "base_1502_7", "base_1502_8",
       "base_1502_9", "base_1502_10", "base_1502_11", "base_1502_12"] :=
  ⟨(c5_pagination_urls "base" c5bar "/kmy".data "1502".data "12".data 12
      ⟨"尾页", some "/kmy_1502_12"⟩ "/kmy_1502_12").1
      (by decide) (by decide) (by decide) (by decide),
   (c5_pagination_urls "base" c5bar2 "/kmy".data "1502".data "2".data 2
      ⟨"2", some "/kmy_1502_2"⟩ "/kmy_1502_2").2
      (by decide) (by decide) (by decide) (by decide) (by decide) (by decide),
   by decide⟩

/-! ## Claim C8 — per-chapter question-id discovery -/

theorem pySplit_cons (sep c : Char) (cs : List Char) :
    pySplit sep (c :: cs) =
      (if c == sep then [] :: pySplit sep cs
      else match pySplit sep cs with
        | h :: t => (c :: h) :: t
        | [] => [[c]]) := rfl

theorem pySplit_append_sep (sep : Char) (xs ys : List Char) (h : sep ∉ xs) :
    pySplit sep (xs ++ sep :: ys) = xs :: pySplit sep ys := by
  induction xs with
  | nil => simp [pySplit]
  | cons c t ih =>
    have hc : c ≠ sep := fun he => h (he ▸ List.mem_cons_self c t)
    have ht : sep ∉ t := fun hm => h (List.mem_cons_of_mem c hm)
    rw [List.cons_append, pySplit_cons, ih ht]
    simp [hc]

theorem pySplit_head (sep : Char) (l : List Char) :
    ∃ t, pySplit sep l = (l.takeWhile (fun c => !(c == sep))) :: t := by
  induction l with
  | nil => exact ⟨[], rfl⟩
  | cons c cs ih =>
    unfold pySplit
    cases hc : c == sep with
    | true =>
      have : c = sep := by simpa using hc
      simp [hc, List.takeWhile_cons, this]
    | false =>
      obtain ⟨t, ht⟩ := ih
      rw [ht]
      simp [hc, List.takeWhile_cons]

theorem takeWhile_append_of_forall {p : Char → Bool} (xs ys : List Char)
    (h : ∀ x ∈ xs, p x = true) :
    (xs ++ ys).takeWhile p = xs ++ ys.takeWhile p := by
  induction xs with
  | nil => simp
  | cons c t ih =>
    rw [List.cons_append, List.takeWhile_cons]
    have hc : p c = true := h c (List.mem_cons_self c t)
    rw [hc]
    simp only [if_true]
    rw [ih (fun x hx => h x (List.mem_cons_of_mem c hx))]
    rfl

/-- The `/Post/<id>.<ext>` convention: on a href of that shape, with the id
free of `/` and `.`, the extracted token is exactly the id. -/
theorem qidOfHref_post (id ext : List Char) (u : String)
    (h1 : '/' ∉ id) (h2 : '.' ∉ id)
    (hu : u.data = "/Post/".data ++ (id ++ '.' :: ext)) :
    qidOfHref (some u) = .ok (String.mk id) := by
  show (match (pySplit '/' u.data).get? 2 with
    | none => Except.error (PyExc.indexErr "list index out of range")
    | some seg => Except.ok (String.mk (pySplit '.' seg).headI)) = _
  rw [hu]
  have hpost : ('/' : Char) ∉ ['P', 'o', 's', 't'] := by decide
  have hsplit : pySplit '/' ("/Post/".data ++ (id ++ '.' :: ext)) =
      [] :: ['P', 'o', 's', 't'] :: pySplit '/' (id ++ '.' :: ext) := by
    show pySplit '/' ('/' :: (['P', 'o', 's', 't'] ++ '/' :: (id ++ '.' :: ext))) = _
    rw [pySplit_cons]
    simp only [beq_self_eq_true, if_true]
    rw [pySplit_append_sep '/' ['P', 'o', 's', 't'] _ hpost]
  rw [hsplit]
  obtain ⟨t, ht⟩ := pySplit_head '/' (id ++ '.' :: ext)
  have hid : ∀ x ∈ id, (!(x == '/')) = true := by
    intro x hx
    have : x ≠ '/' := fun he => h1 (he ▸ hx)
    simpa using this
  have htake : (id ++ '.' :: ext).takeWhile (fun c => !(c == '/')) =
      id ++ ('.' :: ext).takeWhile (fun c => !(c == '/')) :=
    takeWhile_append_of_forall id _ hid
  have hdot : ('.' :: ext).takeWhile (fun c => !(c == '/')) =
      '.' :: ext.takeWhile (fun c => !(c == '/')) := by
    rw [List.takeWhile_cons]
    simp
  rw [ht, htake, hdot]
  show Except.ok (String.mk (pySplit '.' (id ++ '.' :: _)).headI) = _
  obtain ⟨t2, ht2⟩ := pySplit_head '.' (id ++ '.' :: ext.takeWhile (fun c => !(c == '/')))
  rw [ht2]
  have hid2 : ∀ x ∈ id, (!(x == '.')) = true := by
    intro x hx
    have : x ≠ '.' := fun he => h2 (he ▸ hx)
    simpa using this
  have htake2 : (id ++ '.' :: ext.takeWhile (fun c => !(c == '/'))).takeWhile
      (fun c => !(c == '.')) = id ++ [] := by
    rw [takeWhile_append_of_forall id _ hid2, List.takeWhile_cons]
    simp
  rw [List.headI, htake2]
  simp

theorem pyLookup_insertOverwrite_self {α β : Type} [BEq α] [LawfulBEq α]
    (d : List (α × β)) (k : α) (v : β) :
    pyLookup (insertOverwrite d k v) k = some v := by
  induction d with
  | nil => simp [insertOverwrite, pyLookup_cons]
  | cons p t ih =>
    unfold insertOverwrite
    cases hk : p.1 == k with
    | true =>
      simp only [if_true]
      rw [pyLookup_cons]
      simp [hk]
    | false =>
      simp only [Bool.false_eq_true, if_false]
      rw [pyLookup_cons]
      simp [hk, ih]

theorem pyLookup_insertOverwrite_ne {α β : Type} [BEq α] [LawfulBEq α]
    (d : List (α × β)) (k : α) (v : β) (m : α) (h : m ≠ k) :
    pyLookup (insertOverwrite d k v) m = pyLookup d m := by
  induction d with
  | nil =>
    show pyLookup [(k, v)] m = pyLookup [] m
    rw [pyLookup_cons, pyLookup_nil]
    have hkm : (k == m) = false := by simpa using fun he => h he.symm
    simp [hkm]
  | cons p t ih =>
    unfold insertOverwrite
    cases hk : p.1 == k with
    | true =>
      have hp : p.1 = k := by simpa using hk
      have hpm : (p.1 == m) = false := by
        simp only [hp]
        simpa using fun he => h he.symm
      simp only [if_true]
      rw [pyLookup_cons, pyLookup_cons]
      simp [hpm]
    | false =>
      simp only [Bool.false_eq_true, if_false]
      rw [pyLookup_cons, pyLookup_cons]
      cases hm : p.1 == m with
      | true => simp
      | false => simpa using ih

theorem except_bind_ok {α β : Type} (a : α) (f : α → Except PyExc β) :
    (Except.ok a >>= f) = f a := rfl

theorem except_bind_error {α β : Type} (e : PyExc) (f : α → Except PyExc β) :
    ((Except.error e : Except PyExc α) >>= f) = Except.error e := rfl

theorem except_pure {α : Type} (a : α) :
    (pure a : Except PyExc α) = Except.ok a := rfl

theorem except_pure_bind {α β : Type} (a : α) (f : α → Except PyExc β) :
    ((pure a : Except PyExc α) >>= f) = f a := rfl

/-- The question-id accumulation of `_extract_qid`, characterized: on
success the result extends the accumulator by the tokens of the anchors,
stays duplicate-free, and contains exactly the accumulated and extracted
tokens. -/
theorem extract_qid_go (anchors : List Anchor) :
    ∀ (acc res : List String),
      anchors.foldlM (fun qids a => (qidOfHref a.href).map (pySetAdd qids)) acc
        = .ok res →
      acc.Nodup →
      res.Nodup ∧ ∀ x, x ∈ res ↔ x ∈ acc ∨
        ∃ a ∈ anchors, qidOfHref a.href = .ok x := by
  induction anchors with
  | nil =>
    intro acc res h hnd
    cases h
    exact ⟨hnd, fun x => by simp⟩
  | cons a t ih =>
    intro acc res h hnd
    rw [List.foldlM_cons] at h
    cases hq : qidOfHref a.href with
    | error e => rw [hq] at h; cases h
    | ok v =>
      rw [hq] at h
      have h' : t.foldlM (fun qids a => (qidOfHref a.href).map (pySetAdd qids))
          (pySetAdd acc v) = .ok res := h
      obtain ⟨hnd', hmem⟩ := ih (pySetAdd acc v) res h' (nodup_pySetAdd acc v hnd)
      refine ⟨hnd', fun x => ?_⟩
      rw [hmem x, mem_pySetAdd]
      constructor
      · rintro ((hx | rfl) | ⟨b, hb, hbx⟩)
        · exact Or.inl hx
        · exact Or.inr ⟨a, List.mem_cons_self a t, hq⟩
        · exact Or.inr ⟨b, List.mem_cons_of_mem a hb, hbx⟩
      · rintro (hx | ⟨b, hb, hbx⟩)
        · exact Or.inl (Or.inl hx)
        · rcases List.mem_cons.mp hb with rfl | hb
          · rw [hq] at hbx
            cases hbx
            exact Or.inl (Or.inr rfl)
          · exact Or.inr ⟨b, hb, hbx⟩

/-- `chapterQids` characterized: on success the per-chapter set is
duplicate-free and contains exactly the tokens extracted from the anchors
of the successfully fetched pages. -/
theorem chapterQids_ok (env : QidEnv) (urls : List String) :
    ∀ (acc res : List String),
      urls.foldlM (fun s url => do
          match env.qidSection url with
          | .error m => Except.error (PyExc.jsyksConnErr m)
          | .ok anchors => do
            let new ← extract_qid anchors
            pure (pySetUnion s new)) acc = .ok res →
      acc.Nodup →
      res.Nodup ∧ ∀ x, x ∈ res ↔ x ∈ acc ∨
        ∃ url ∈ urls, ∃ anchors, env.qidSection url = .ok anchors ∧
          ∃ a ∈ anchors, qidOfHref a.href = .ok x := by
  induction urls with
  | nil =>
    intro acc res h hnd
    cases h
    exact ⟨hnd, fun x => by simp⟩
  | cons u t ih =>
    intro acc res h hnd
    rw [List.foldlM_cons] at h
    cases hsec : env.qidSection u with
    | error m => rw [hsec] at h; cases h
    | ok anchors =>
      cases hex : extract_qid anchors with
      | error e =>
        simp only [hsec, hex, except_bind_error] at h
        cases h
      | ok new =>
        simp only [hsec, hex, except_bind_ok, except_pure] at h
        have hexgo : anchors.foldlM
            (fun qids a => (qidOfHref a.href).map (pySetAdd qids)) [] = .ok new := hex
        obtain ⟨hnew, hnewmem⟩ := extract_qid_go anchors [] new hexgo List.nodup_nil
        obtain ⟨hnd', hmem⟩ := ih (pySetUnion acc new) res h
          (nodup_pySetUnion acc new hnd)
        refine ⟨hnd', fun x => ?_⟩
        rw [hmem x, mem_pySetUnion]
        constructor
        · rintro ((hx | hx) | ⟨url, hurl, hrest⟩)
          · exact Or.inl hx
          · have := (hnewmem x).mp hx
            rcases this with hfalse | ⟨a, ha, hax⟩
            · cases hfalse
            · exact Or.inr ⟨u, List.mem_cons_self u t, anchors, hsec, a, ha, hax⟩
          · exact Or.inr ⟨url, List.mem_cons_of_mem u hurl, hrest⟩
        · rintro (hx | ⟨url, hurl, anchors', hsec', a, ha, hax⟩)
          · exact Or.inl (Or.inl hx)
          · rcases List.mem_cons.mp hurl with rfl | hurl
            · rw [hsec] at hsec'
              cases hsec'
              exact Or.inl (Or.inr ((hnewmem x).mpr (Or.inr ⟨a, ha, hax⟩)))
            · exact Or.inr ⟨url, hurl, anchors', hsec', a, ha, hax⟩

/-- The outer loop of `get_chapter_to_qids`, characterized: every entry of
the produced mapping comes from `chapterQids` on that chapter's stored page
URLs. -/
theorem get_chapter_to_qids_entries (env : QidEnv) (st : QidState)
    (L : List Nat) :
    ∀ (acc m : List (Nat × List String)),
      L.foldlM (fun acc n => do
          match pyLookup st.chapt_to_urls n with
          | none => Except.error (PyExc.keyErr (toString n))
          | some urls => do
            let qids ← chapterQids env urls
            pure (insertOverwrite acc n qids)) acc = .ok m →
      (∀ n qids, pyLookup acc n = some qids →
        ∃ urls, pyLookup st.chapt_to_urls n = some urls ∧
          chapterQids env urls = .ok qids) →
      ∀ n qids, pyLookup m n = some qids →
        ∃ urls, pyLookup st.chapt_to_urls n = some urls ∧
          chapterQids env urls = .ok qids := by
  induction L with
  | nil =>
    intro acc m h hacc
    cases h
    exact hacc
  | cons n' L' ih =>
    intro acc m h hacc
    cases hurl : pyLookup st.chapt_to_urls n' with
    | none =>
      simp only [List.foldlM_cons, hurl, except_bind_error] at h
      cases h
    | some urls =>
      cases hq : chapterQids env urls with
      | error e =>
        simp only [List.foldlM_cons, hurl, hq, except_bind_error] at h
        cases h
      | ok qids' =>
        simp only [List.foldlM_cons, hurl, hq, except_bind_ok, except_pure] at h
        refine ih (insertOverwrite acc n' qids') m h ?_
        intro n qids hl
        by_cases hn : n = n'
        · subst hn
          rw [pyLookup_insertOverwrite_self] at hl
          cases hl
          exact ⟨urls, hurl, hq⟩
        · rw [pyLookup_insertOverwrite_ne _ _ _ _ hn] at hl
          exact hacc n qids hl

/-- C8 (amended): `get_chapter_to_qids` returns, for every chapter, the
union over that chapter's synthesized page URLs of the tokens
`href.split('/')[2].split('.')[0]` of *all* anchors on the page — for an
anchor following the `/Post/<id>.<ext>` convention that token is exactly
`<id>`, but no check restricts extraction to such anchors; an id appearing
on several pages occurs once in the chapter's set. -/
theorem c8_amended :
    (∀ (id ext : List Char) (u : String), '/' ∉ id → '.' ∉ id →
      u.data = "/Post/".data ++ (id ++ '.' :: ext) →
      qidOfHref (some u) = .ok (String.mk id)) ∧
    (∀ (env : QidEnv) (st : QidState), st.connected = true →
      ∀ m, get_chapter_to_qids env st = .ok m →
        ∀ n qids, pyLookup m n = some qids →
          ∃ urls, pyLookup st.chapt_to_urls n = some urls ∧
            qids.Nodup ∧
            (∀ x, x ∈ qids ↔ ∃ url ∈ urls, ∃ anchors,
              env.qidSection url = .ok anchors ∧
              ∃ a ∈ anchors, qidOfHref a.href = .ok x)) := by
  refine ⟨qidOfHref_post, ?_⟩
  intro env st hc m h n qids hl
  unfold get_chapter_to_qids at h
  rw [hc] at h
  simp only [not_true, Bool.true_eq_false, if_false, ite_false] at h
  obtain ⟨urls, hurl, hq⟩ :=
    get_chapter_to_qids_entries env st (st.chapters.map Prod.fst) [] m h
      (fun n qids hl => by rw [pyLookup_nil] at hl; cases hl) n qids hl
  obtain ⟨hnd, hmem⟩ := chapterQids_ok env urls [] qids hq List.nodup_nil
  refine ⟨urls, hurl, hnd, fun x => ?_⟩
  rw [hmem x]
  simp

/-- A connected discoverer state with one chapter and one page URL. -/
def c8st : QidState := ⟨"B", true, [(1, "章")], [], [(1, ["u1"])]⟩

/-- An environment whose single question-list page holds one anchor that
does *not* follow the `/Post/<id>.<ext>` convention. -/
def c8env : QidEnv :=
  ⟨.error (.valueErr "unused"), fun _ => .error (.valueErr "unused"),
   fun _ => .ok [⟨"link", some "/Menu/home.htm"⟩]⟩

/-- C8 (counterexample): the claim says only anchors matching
`/Post/<id>.<ext>` contribute identifiers; but an anchor with href
`/Menu/home.htm` — not matching the convention — contributes the token
`home` to the chapter's id set. -/
theorem c8_counterexample :
    get_chapter_to_qids c8env c8st = .ok [(1, ["home"])] := by decide

/-- A connected discoverer state with one chapter and two page URLs. -/
def c8wst : QidState := ⟨"B", true, [(1, "章")], [], [(1, ["u1", "u2"])]⟩

/-- An environment with `/Post/...` anchors, one id repeated on both
pages. -/
def c8wenv : QidEnv :=
  ⟨.error (.valueErr "unused"), fun _ => .error (.valueErr "unused"),
   fun u => if u == "u1" then .ok [⟨"a", some "/Post/c122c.htm"⟩]
     else .ok [⟨"a", some "/Post/c122c.htm"⟩, ⟨"b", some "/Post/xf4a.htm"⟩]⟩

/-- C8 (witness): the amended theorem applied to a concrete discovery run
(an id occurring on both pages appears once). -/
theorem c8_witness :
    qidOfHref (some "/Post/c122c.htm") = .ok (String.mk "c122c".data) ∧
    (∃ urls, pyLookup c8wst.chapt_to_urls 1 = some urls ∧
      (["c122c", "xf4a"] : List String).Nodup ∧
      (∀ x, x ∈ (["c122c", "xf4a"] : List String) ↔ ∃ url ∈ urls, ∃ anchors,
        c8wenv.qidSection url = .ok anchors ∧
        ∃ a ∈ anchors, qidOfHref a.href = .ok x)) :=
  ⟨c8_amended.1 "c122c".data "htm".data "/Post/c122c.htm"
      (by decide) (by decide) (by decide),
   c8_amended.2 c8wenv c8wst (by decide) [(1, ["c122c", "xf4a"])] (by decide)
      1 ["c122c", "xf4a"] (by decide)⟩

/-! ## Claim C9 — the connect-before-use state machine -/

theorem except_bind_eq_ok {α β : Type} (x : Except PyExc α)
    (f : α → Except PyExc β) (b : β) (h : (x >>= f) = .ok b) :
    ∃ a, x = .ok a ∧ f a = .ok b := by
  cases x with
  | error e => rw [except_bind_error] at h; cases h
  | ok a => exact ⟨a, rfl, h⟩

/-- A successful `connect` leaves the scraper connected. -/
theorem qidConnect_connected (env : QidEnv) (st st' : QidState)
    (h : qidConnect env st = .ok st') : st'.connected = true := by
  unfold qidConnect at h
  obtain ⟨entries, he, h2⟩ := except_bind_eq_ok _ _ _ h
  obtain ⟨urls, hu, h3⟩ := except_bind_eq_ok _ _ _ h2
  cases h3
  rfl

/-- `qidOfHref` raises only `AttributeError` or `IndexError`. -/
theorem qidOfHref_error_shape (href : Option String) (e : PyExc)
    (h : qidOfHref href = .error e) : ∀ m, e ≠ PyExc.jsyksContentErr m := by
  cases href with
  | none =>
    cases h
    intro m hne
    cases hne
  | some u =>
    replace h : (match (pySplit '/' u.data).get? 2 with
      | none => Except.error (PyExc.indexErr "list index out of range")
      | some seg => Except.ok (String.mk (pySplit '.' seg).headI)) =
        Except.error e := h
    cases hs : (pySplit '/' u.data).get? 2 with
    | none =>
      rw [hs] at h
      cases h
      intro m hne
      cases hne
    | some seg => rw [hs] at h; cases h

/-- `_extract_qid` never raises `JSYKSContentRetrievalError`. -/
theorem extract_qid_error_shape (anchors : List Anchor) :
    ∀ (acc : List String) (e : PyExc),
      anchors.foldlM (fun qids a => (qidOfHref a.href).map (pySetAdd qids)) acc
        = .error e →
      ∀ m, e ≠ PyExc.jsyksContentErr m := by
  induction anchors with
  | nil => intro acc e h; cases h
  | cons a t ih =>
    intro acc e h
    rw [List.foldlM_cons] at h
    cases hq : qidOfHref a.href with
    | error e' =>
      rw [hq] at h
      replace h : (Except.error e' : Except PyExc (List String)) = .error e := h
      injection h with hee
      exact hee ▸ qidOfHref_error_shape a.href e' hq
    | ok v =>
      rw [hq] at h
      exact ih (pySetAdd acc v) e h

/-- The per-chapter id loop raises only `JSYKSConnectionError` or the
generic exceptions of `_extract_qid`. -/
theorem chapterQids_error_shape (env : QidEnv) (urls : List String) :
    ∀ (acc : List String) (e : PyExc),
      urls.foldlM (fun s url => do
          match env.qidSection url with
          | .error m => Except.error (PyExc.jsyksConnErr m)
          | .ok anchors => do
            let new ← extract_qid anchors
            pure (pySetUnion s new)) acc = .error e →
      ∀ m, e ≠ PyExc.jsyksContentErr m := by
  induction urls with
  | nil => intro acc e h; cases h
  | cons u t ih =>
    intro acc e h
    cases hsec : env.qidSection u with
    | error msg =>
      simp only [List.foldlM_cons, hsec, except_bind_error] at h
      cases h
      intro m hne
      cases hne
    | ok anchors =>
      cases hex : extract_qid anchors with
      | error e' =>
        simp only [List.foldlM_cons, hsec, hex, except_bind_error] at h
        injection h with hee
        exact hee ▸ extract_qid_error_shape anchors [] e' hex
      | ok new =>
        simp only [List.foldlM_cons, hsec, hex, except_bind_ok, except_pure] at h
        exact ih (pySetUnion acc new) e h

/-- After the guard, `get_chapter_to_qids` can fail only with a `KeyError`
or an error of the per-chapter loop — never with the not-connected
`JSYKSContentRetrievalError`. -/
theorem get_chapter_to_qids_error_shape (env : QidEnv) (st : QidState)
    (L : List Nat) :
    ∀ (acc : List (Nat × List String)) (e : PyExc),
      L.foldlM (fun acc n => do
          match pyLookup st.chapt_to_urls n with
          | none => Except.error (PyExc.keyErr (toString n))
          | some urls => do
            let qids ← chapterQids env urls
            pure (insertOverwrite acc n qids)) acc = .error e →
      ∀ m, e ≠ PyExc.jsyksContentErr m := by
  induction L with
  | nil => intro acc e h; cases h
  | cons n L' ih =>
    intro acc e h
    cases hurl : pyLookup st.chapt_to_urls n with
    | none =>
      simp only [List.foldlM_cons, hurl, except_bind_error] at h
      cases h
      intro m hne
      cases hne
    | some urls =>
      cases hq : chapterQids env urls with
      | error e' =>
        simp only [List.foldlM_cons, hurl, hq, except_bind_error] at h
        injection h with hee
        exact hee ▸ chapterQids_error_shape env urls [] e' hq
      | ok qids =>
        simp only [List.foldlM_cons, hurl, hq, except_bind_ok, except_pure] at h
        exact ih (insertOverwrite acc n qids) e h

/-- C9: on a freshly constructed `QidScraper` (not yet connected), both
`get_chapters` and `get_chapter_to_qids` fail with the not-connected
`JSYKSContentRetrievalError`; once `connect` has completed successfully,
neither operation raises that error any more. -/
theorem c9_not_connected_guard :
    (∀ base : String,
      get_chapters (QidState.init base) =
        .error (.jsyksContentErr notConnectedMsg) ∧
      ∀ env : QidEnv, get_chapter_to_qids env (QidState.init base) =
        .error (.jsyksContentErr notConnectedMsg)) ∧
    (∀ (env : QidEnv) (st st' : QidState), qidConnect env st = .ok st' →
      get_chapters st' = .ok st'.chapters ∧
      ∀ env' : QidEnv, get_chapter_to_qids env' st' ≠
        .error (.jsyksContentErr notConnectedMsg)) := by
  constructor
  · intro base
    exact ⟨rfl, fun env => rfl⟩
  · intro env st st' hconn
    have hc : st'.connected = true := qidConnect_connected env st st' hconn
    constructor
    · unfold get_chapters
      rw [hc]
      simp
    · intro env' habs
      unfold get_chapter_to_qids at habs
      rw [hc] at habs
      simp only [not_true, Bool.true_eq_false, if_false, ite_false] at habs
      exact get_chapter_to_qids_error_shape env' st'
        (st'.chapters.map Prod.fst) [] _ habs notConnectedMsg rfl

/-- A discovery environment on which `connect` succeeds. -/
def c9env : QidEnv :=
  ⟨.ok [(1, "法律", "cu1")],
   fun _ => .ok [⟨"尾页", some "k_1502_2"⟩],
   fun _ => .ok []⟩

/-- The state produced by a successful `connect` on `c9env`. -/
def c9st : QidState :=
  ⟨"B", true, [(1, "法律")], [(1, "cu1")], [(1, ["B_1502_1", "B_1502_2"])]⟩

/-- C9 (witness): the guard theorem applied to a fresh scraper and to the
state left by a concrete successful `connect`. -/
theorem c9_witness :
    get_chapters (QidState.init "B") =
      .error (.jsyksContentErr notConnectedMsg) ∧
    get_chapter_to_qids c9env (QidState.init "B") =
      .error (.jsyksContentErr notConnectedMsg) ∧
    get_chapters c9st = .ok c9st.chapters ∧
    get_chapter_to_qids c9env c9st ≠
      .error (.jsyksContentErr notConnectedMsg) :=
  ⟨(c9_not_connected_guard.1 "B").1,
   (c9_not_connected_guard.1 "B").2 c9env,
   (c9_not_connected_guard.2 c9env (QidState.init "B") c9st (by decide)).1,
   (c9_not_connected_guard.2 c9env (QidState.init "B") c9st (by decide)).2 c9env⟩

/-! ## Claims C7 and C10 — database round trip -/

/-- The description stored for a chapter (with a junk default outside the
bank's domain). -/
def descD (qb : QuestionBank) (n : Nat) : String :=
  (pyLookup qb.chapters n).getD ""

/-- The id list stored for a chapter. -/
def qidsD (qb : QuestionBank) (n : Nat) : List String :=
  (pyLookup qb.chap_num_to_ids n).getD []

/-- The record stored for a question id. -/
def qD (qb : QuestionBank) (k : String) : Question :=
  (pyLookup qb.id_to_q k).getD ⟨"", "", [], "", none⟩

/-- The record rebuilt by deserialization for a question id: the stored
record with its image path replaced by the persistence path. -/
def reQ (dbdir : String) (qb : QuestionBank) (k : String) : Question :=
  ⟨k, (qD qb k).question, (qD qb k).answers, (qD qb k).correct_answer,
   some (dbdir ++ k)⟩

/-- Well-formedness of an in-memory bank, as `add_chapter`/`add_question`
maintain it: unique chapter numbers; the id-set map keyed exactly like the
chapter map; duplicate-free, pairwise-disjoint per-chapter id lists; unique
question ids; every registered id owning a stored record and every stored
record registered in some chapter; and every stored record produced by the
validating factory under its own id. -/
def BankWF (qb : QuestionBank) : Prop :=
  (qb.chapters.map Prod.fst).Nodup ∧
  qb.chap_num_to_ids.map Prod.fst = qb.chapters.map Prod.fst ∧
  (∀ p ∈ qb.chap_num_to_ids, p.2.Nodup) ∧
  List.Pairwise (fun p q => ∀ k, k ∈ p.2 → k ∉ q.2) qb.chap_num_to_ids ∧
  (qb.id_to_q.map Prod.fst).Nodup ∧
  (∀ p ∈ qb.chap_num_to_ids, ∀ k ∈ p.2, k ∈ qb.id_to_q.map Prod.fst) ∧
  (∀ p ∈ qb.id_to_q, ∃ c ∈ qb.chap_num_to_ids, p.1 ∈ c.2) ∧
  (∀ p ∈ qb.id_to_q, p.2.qid = p.1 ∧
    Question.make p.2.qid p.2.question p.2.answers p.2.correct_answer
      p.2.img_path = .ok p.2)

instance (qb : QuestionBank) : Decidable (BankWF qb) := by
  unfold BankWF
  infer_instance

theorem pyLookup_eq_some_getD {α β : Type} [BEq α] [LawfulBEq α]
    (l : List (α × β)) (k : α) (d : β) (h : k ∈ l.map Prod.fst) :
    pyLookup l k = some ((pyLookup l k).getD d) := by
  cases hl : pyLookup l k with
  | some v => rfl
  | none => exact absurd ((pyLookup_eq_none_iff l k).mp hl) (by simp [h])

theorem pyLookup_of_mem_nodup {α β : Type} [BEq α] [LawfulBEq α]
    (l : List (α × β)) (p : α × β) (hnd : (l.map Prod.fst).Nodup)
    (hp : p ∈ l) : pyLookup l p.1 = some p.2 := by
  induction l with
  | nil => cases hp
  | cons q t ih =>
    rw [pyLookup_cons]
    rcases List.mem_cons.mp hp with rfl | hp'
    · simp
    · have hq : q.1 ∉ t.map Prod.fst := (List.nodup_cons.mp hnd).1
      have hne : (q.1 == p.1) = false := by
        have : q.1 ≠ p.1 := fun he => hq (he ▸ List.mem_map_of_mem Prod.fst hp')
        simpa using this
      rw [hne]
      simp only [Bool.false_eq_true, if_false]
      exact ih (List.nodup_cons.mp hnd).2 hp'

theorem pyLookup_updateAssoc_self {α β : Type} [BEq α] [LawfulBEq α]
    (l : List (α × β)) (k : α) (f : β → β) :
    pyLookup (updateAssoc l k f) k = (pyLookup l k).map f := by
  induction l with
  | nil => rfl
  | cons p t ih =>
    unfold updateAssoc
    rw [List.map_cons]
    cases hk : p.1 == k with
    | true =>
      simp only [hk, if_true]
      rw [pyLookup_cons, pyLookup_cons]
      simp [hk]
    | false =>
      simp only [hk, Bool.false_eq_true, if_false]
      rw [pyLookup_cons, pyLookup_cons]
      simp only [hk, Bool.false_eq_true, if_false]
      exact ih

theorem exceptFoldlM_append {σ α : Type} (f : σ → α → Except PyExc σ)
    (l₁ l₂ : List α) : ∀ b : σ,
    (l₁ ++ l₂).foldlM f b = (l₁.foldlM f b) >>= fun b1 => l₂.foldlM f b1 := by
  induction l₁ with
  | nil =>
    intro b
    rw [List.nil_append, List.foldlM_nil, except_pure, except_bind_ok]
  | cons a t ih =>
    intro b
    rw [List.cons_append, List.foldlM_cons, List.foldlM_cons]
    cases hf : f b a with
    | error e =>
      rw [except_bind_error]
      exact (except_bind_error e _).symm
    | ok b' =>
      rw [except_bind_ok, except_bind_ok]
      exact ih b'

/-- The per-chapter question-serialization loop, characterized: it appends
one serialized entry per id. -/
theorem serialize_questions_go (dbdir : String) (qb : QuestionBank)
    (ks : List String) : ∀ (qs : List (String × SerializedQ)),
    (∀ k ∈ ks, pyLookup qb.id_to_q k = some (qD qb k)) →
    (∀ k ∈ ks, pyLookup qs k = none) →
    ks.Nodup →
    ks.foldlM (fun qs k => do
        let q ← qb.get_question k
        pure (insertOverwrite qs k (serQ dbdir q))) qs =
      .ok (qs ++ ks.map (fun k => (k, serQ dbdir (qD qb k)))) := by
  induction ks with
  | nil =>
    intro qs _ _ _
    rw [List.foldlM_nil, List.map_nil, List.append_nil]
    rfl
  | cons k t ih =>
    intro qs hlook hfresh hnd
    have hk : qb.get_question k = .ok (qD qb k) := by
      unfold QuestionBank.get_question
      rw [hlook k (List.mem_cons_self k t)]
    rw [List.foldlM_cons]
    simp only [hk, except_bind_ok, except_pure_bind]
    rw [insertOverwrite_of_fresh _ _ _ (hfresh k (List.mem_cons_self k t))]
    have hstep := ih (qs ++ [(k, serQ dbdir (qD qb k))])
      (fun k' hk' => hlook k' (List.mem_cons_of_mem k hk'))
      (fun k' hk' => by
        rw [pyLookup_append]
        rw [hfresh k' (List.mem_cons_of_mem k hk')]
        have hne : k' ≠ k := fun he =>
          (List.nodup_cons.mp hnd).1 (he ▸ hk')
        rw [pyLookup_cons, pyLookup_nil]
        have : (k == k') = false := by simpa using fun he => hne he.symm
        simp [this])
      (List.nodup_cons.mp hnd).2
    rw [hstep]
    rw [List.map_cons, List.append_assoc]
    rfl

/-- The chapter-serialization loop of `_serialize_question_bank`,
characterized: it appends the canonical chapter, id-list and question
entries for each processed chapter number. -/
theorem serialize_go (dbdir : String) (qb : QuestionBank) (L : List Nat) :
    ∀ (acc : SerializedBank),
    L.Nodup →
    (∀ n ∈ L, pyLookup qb.chapters n = some (descD qb n)) →
    (∀ n ∈ L, pyLookup qb.chap_num_to_ids n = some (qidsD qb n)) →
    (∀ n ∈ L, (qidsD qb n).Nodup) →
    (∀ n ∈ L, ∀ k ∈ qidsD qb n, pyLookup qb.id_to_q k = some (qD qb k)) →
    List.Pairwise (fun a b => ∀ k ∈ qidsD qb a, k ∉ qidsD qb b) L →
    (∀ n ∈ L, pyLookup acc.chapters n = none) →
    (∀ n ∈ L, pyLookup acc.chap_to_qids n = none) →
    (∀ n ∈ L, ∀ k ∈ qidsD qb n, pyLookup acc.questions k = none) →
    L.foldlM (fun acc n => do
        let desc ← qb.describe_chapter n
        let qids ← qb.get_qids_by_chapter n
        let qs ← qids.foldlM (fun qs k => do
            let q ← qb.get_question k
            pure (insertOverwrite qs k (serQ dbdir q))) acc.questions
        pure { acc with chapters := insertOverwrite acc.chapters n desc,
                        chap_to_qids := insertOverwrite acc.chap_to_qids n qids,
                        questions := qs }) acc =
      .ok ⟨acc.chapters ++ L.map (fun n => (n, descD qb n)),
           acc.chap_to_qids ++ L.map (fun n => (n, qidsD qb n)),
           acc.questions ++ L.flatMap (fun n => (qidsD qb n).map
             (fun k => (k, serQ dbdir (qD qb k)))),
           acc.img_dir⟩ := by
  induction L with
  | nil =>
    intro acc _ _ _ _ _ _ _ _ _
    rw [List.foldlM_nil, List.map_nil, List.map_nil, List.flatMap_nil,
      List.append_nil, List.append_nil, List.append_nil]
    rfl
  | cons n L' ih =>
    intro acc hnd hch hcq hqnd hq hpw hfc hfcq hfq
    have hmemn := List.mem_cons_self n L'
    have hdesc : qb.describe_chapter n = .ok (descD qb n) := by
      unfold QuestionBank.describe_chapter
      rw [hch n hmemn]
    have hqids : qb.get_qids_by_chapter n = .ok (qidsD qb n) := by
      unfold QuestionBank.get_qids_by_chapter
      rw [hcq n hmemn]
    have hinner := serialize_questions_go dbdir qb (qidsD qb n) acc.questions
      (hq n hmemn) (hfq n hmemn) (hqnd n hmemn)
    rw [List.foldlM_cons]
    simp only [hdesc, hqids, hinner, except_bind_ok, except_pure_bind]
    rw [insertOverwrite_of_fresh _ _ _ (hfc n hmemn),
      insertOverwrite_of_fresh _ _ _ (hfcq n hmemn)]
    have hndL : L'.Nodup := (List.nodup_cons.mp hnd).2
    have hnL : n ∉ L' := (List.nodup_cons.mp hnd).1
    have hpwh := (List.pairwise_cons.mp hpw).1
    have hpwt := (List.pairwise_cons.mp hpw).2
    have hstep := ih ⟨acc.chapters ++ [(n, descD qb n)],
        acc.chap_to_qids ++ [(n, qidsD qb n)],
        acc.questions ++ (qidsD qb n).map (fun k => (k, serQ dbdir (qD qb k))),
        acc.img_dir⟩
      hndL
      (fun m hm => hch m (List.mem_cons_of_mem n hm))
      (fun m hm => hcq m (List.mem_cons_of_mem n hm))
      (fun m hm => hqnd m (List.mem_cons_of_mem n hm))
      (fun m hm => hq m (List.mem_cons_of_mem n hm))
      hpwt
      (fun m hm => by
        show pyLookup (acc.chapters ++ [(n, descD qb n)]) m = none
        rw [pyLookup_append, hfc m (List.mem_cons_of_mem n hm)]
        rw [pyLookup_cons, pyLookup_nil]
        have hne : (n == m) = false := by
          have hnem : n ≠ m := fun he => hnL (by rw [he]; exact hm)
          simpa using hnem
        simp [hne])
      (fun m hm => by
        show pyLookup (acc.chap_to_qids ++ [(n, qidsD qb n)]) m = none
        rw [pyLookup_append, hfcq m (List.mem_cons_of_mem n hm)]
        rw [pyLookup_cons, pyLookup_nil]
        have hne : (n == m) = false := by
          have hnem : n ≠ m := fun he => hnL (by rw [he]; exact hm)
          simpa using hnem
        simp [hne])
      (fun m hm k hk => by
        show pyLookup (acc.questions ++
          (qidsD qb n).map (fun k => (k, serQ dbdir (qD qb k)))) k = none
        rw [pyLookup_append, hfq m (List.mem_cons_of_mem n hm) k hk]
        have hkn : k ∉ qidsD qb n := fun hkn => hpwh m hm k hkn hk
        exact pyLookup_map_not_mem _ _ _ hkn)
    rw [hstep]
    rw [List.map_cons, List.map_cons, List.flatMap_cons]
    simp [List.append_assoc]

theorem pyLookup_eq_some_mem {α β : Type} [BEq α] [LawfulBEq α]
    {l : List (α × β)} {k : α} {v : β} (h : pyLookup l k = some v) :
    (k, v) ∈ l := by
  unfold pyLookup at h
  cases hf : l.find? (fun p => p.1 == k) with
  | none => rw [hf] at h; cases h
  | some p =>
    rw [hf] at h
    have hpv : p.2 = v := by simpa using h
    have hpm := List.mem_of_find?_eq_some hf
    have hpk : p.1 = k := by simpa using List.find?_some hf
    have : p = (k, v) := by
      cases p
      simp only at hpv hpk
      rw [hpv, hpk]
    exact this ▸ hpm

/-- `_serialize_question_bank` on a well-formed bank: the serialized
document is the canonical image of the bank, its chapters listed in
ascending numeric order. -/
theorem serializeBank_eq (dbdir : String) (qb : QuestionBank) (h : BankWF qb) :
    serializeBank dbdir qb =
      .ok ⟨qb.get_all_chapter_num.map (fun n => (n, descD qb n)),
           qb.get_all_chapter_num.map (fun n => (n, qidsD qb n)),
           qb.get_all_chapter_num.flatMap (fun n => (qidsD qb n).map
             (fun k => (k, serQ dbdir (qD qb k)))),
           dbdir⟩ := by
  obtain ⟨hnd, hkeys, hqnd, hpw, hqund, hreg, hcov, hval⟩ := h
  have hperm : qb.get_all_chapter_num.Perm (qb.chapters.map Prod.fst) :=
    List.perm_insertionSort _ _
  have hLnd : qb.get_all_chapter_num.Nodup := hperm.symm.nodup hnd
  have hcqnd : (qb.chap_num_to_ids.map Prod.fst).Nodup := by
    rw [hkeys]; exact hnd
  have hcqmem : ∀ n ∈ qb.get_all_chapter_num,
      n ∈ qb.chap_num_to_ids.map Prod.fst := by
    intro n hn
    rw [hkeys]
    exact hperm.mem_iff.mp hn
  have hcqsome : ∀ n ∈ qb.get_all_chapter_num,
      pyLookup qb.chap_num_to_ids n = some (qidsD qb n) :=
    fun n hn => pyLookup_eq_some_getD _ _ _ (hcqmem n hn)
  have hentry : ∀ n ∈ qb.get_all_chapter_num,
      (n, qidsD qb n) ∈ qb.chap_num_to_ids :=
    fun n hn => pyLookup_eq_some_mem (hcqsome n hn)
  have hchsome : ∀ n ∈ qb.get_all_chapter_num,
      pyLookup qb.chapters n = some (descD qb n) :=
    fun n hn => pyLookup_eq_some_getD _ _ _ (hperm.mem_iff.mp hn)
  have hqndL : ∀ n ∈ qb.get_all_chapter_num, (qidsD qb n).Nodup :=
    fun n hn => hqnd _ (hentry n hn)
  have hqsome : ∀ n ∈ qb.get_all_chapter_num, ∀ k ∈ qidsD qb n,
      pyLookup qb.id_to_q k = some (qD qb k) := by
    intro n hn k hk
    exact pyLookup_eq_some_getD _ _ _ (hreg _ (hentry n hn) k hk)
  have hpwL : List.Pairwise (fun a b => ∀ k ∈ qidsD qb a, k ∉ qidsD qb b)
      qb.get_all_chapter_num := by
    have h1 : List.Pairwise (fun p q : Nat × List String =>
        ∀ k ∈ qidsD qb p.1, k ∉ qidsD qb q.1) qb.chap_num_to_ids := by
      refine hpw.imp_of_mem ?_
      intro p q hp hq hr k hkp
      have hp1 : qidsD qb p.1 = p.2 := by
        unfold qidsD
        rw [pyLookup_of_mem_nodup _ _ hcqnd hp]
        rfl
      have hq1 : qidsD qb q.1 = q.2 := by
        unfold qidsD
        rw [pyLookup_of_mem_nodup _ _ hcqnd hq]
        rfl
      rw [hp1] at hkp
      rw [hq1]
      exact hr k hkp
    have h2 : List.Pairwise (fun a b => ∀ k ∈ qidsD qb a, k ∉ qidsD qb b)
        (qb.chap_num_to_ids.map Prod.fst) := List.pairwise_map.mpr h1
    rw [hkeys] at h2
    have hsym : ∀ {a b : Nat},
        (∀ k ∈ qidsD qb a, k ∉ qidsD qb b) → ∀ k ∈ qidsD qb b, k ∉ qidsD qb a :=
      fun hab k hkb hka => hab k hka hkb
    exact (hperm.pairwise_iff @hsym).mpr h2
  have hmain := serialize_go dbdir qb qb.get_all_chapter_num
    ⟨[], [], [], dbdir⟩ hLnd hchsome hcqsome hqndL hqsome hpwL
    (fun n _ => pyLookup_nil n) (fun n _ => pyLookup_nil n)
    (fun n _ k _ => pyLookup_nil k)
  unfold serializeBank
  rw [hmain]
  simp

/-- Re-running the validating constructor on the fields of an
already-validated record succeeds whatever image path is supplied. -/
theorem remake_ok (q : Question) (img : Option String)
    (h : Question.make q.qid q.question q.answers q.correct_answer
      q.img_path = .ok q) :
    Question.make q.qid q.question q.answers q.correct_answer img =
      .ok ⟨q.qid, q.question, q.answers, q.correct_answer, img⟩ := by
  unfold Question.make at h ⊢
  split_ifs at h ⊢
  all_goals first
    | rfl
    | cases h
    | (injection h with h2
       cases q
       injection h2
       simp_all)

/-- The chapter-insertion loop of `_deserialize_question_bank`,
characterized: re-adding distinct fresh chapters appends them, each with an
empty id set. -/
theorem deserialize_chapters_go (cl : List (Nat × String)) : ∀ b : QuestionBank,
    (cl.map Prod.fst).Nodup →
    (∀ p ∈ cl, pyLookup b.chapters p.1 = none) →
    cl.foldlM (fun b p => b.add_chapter p.1 p.2) b =
      .ok ⟨b.img_dir, b.chapters ++ cl,
           b.chap_num_to_ids ++ cl.map (fun p => (p.1, [])), b.id_to_q⟩ := by
  induction cl with
  | nil =>
    intro b _ _
    rw [List.foldlM_nil, List.map_nil, List.append_nil, List.append_nil]
    rfl
  | cons p t ih =>
    intro b hnd hfresh
    have hp : pyLookup b.chapters p.1 = none := hfresh p (List.mem_cons_self p t)
    have hadd : b.add_chapter p.1 p.2 =
        .ok { b with chapters := b.chapters ++ [(p.1, p.2)],
                     chap_num_to_ids := b.chap_num_to_ids ++ [(p.1, [])] } := by
      unfold QuestionBank.add_chapter
      rw [hp]
      rfl
    rw [List.foldlM_cons]
    simp only [hadd, except_bind_ok]
    have hstep := ih { b with chapters := b.chapters ++ [(p.1, p.2)],
                              chap_num_to_ids := b.chap_num_to_ids ++ [(p.1, [])] }
      (List.nodup_cons.mp hnd).2
      (fun q hq => by
        show pyLookup (b.chapters ++ [(p.1, p.2)]) q.1 = none
        rw [pyLookup_append, hfresh q (List.mem_cons_of_mem p hq)]
        rw [pyLookup_cons, pyLookup_nil]
        have hne : (p.1 == q.1) = false := by
          have : p.1 ≠ q.1 := fun he =>
            (List.nodup_cons.mp hnd).1 (he ▸ List.mem_map_of_mem Prod.fst hq)
          simpa using this
        simp [hne])
    rw [hstep]
    simp [List.append_assoc]

/-- On a canonical chapter-to-ids mapping, the first-chapter search finds
the unique chapter containing the id. -/
theorem findChapterFor_canonical (L : List Nat) (g : Nat → List String)
    (k : String) (n : Nat) :
    n ∈ L → k ∈ g n → (∀ m ∈ L, k ∈ g m → m = n) →
    findChapterFor (L.map (fun m => (m, g m))) k = some n := by
  induction L with
  | nil => intro hn; cases hn
  | cons m0 L' ih =>
    intro hn hk huniq
    unfold findChapterFor
    rw [List.map_cons, List.find?_cons]
    cases hc : (g m0).contains k with
    | true =>
      have hm0 : m0 = n := huniq m0 (List.mem_cons_self m0 L')
        ((contains_eq_true_iff _ _).mp hc)
      simp [hc, hm0]
    | false =>
      have hn' : n ∈ L' := by
        rcases List.mem_cons.mp hn with rfl | h'
        · exact absurd hk ((contains_eq_false_iff _ _).mp hc)
        · exact h'
      simp only [hc, Bool.false_eq_true, if_false]
      exact ih hn' hk (fun m hm => huniq m (List.mem_cons_of_mem m0 hm))

/-- The question-insertion loop of `_deserialize_question_bank` for the
serialized entries of one chapter, characterized. -/
theorem deserialize_questions_chapter (dbdir : String) (qb : QuestionBank)
    (D : List (Nat × List String)) (L : List Nat) (n : Nat)
    (ks : List String) : ∀ (b : QuestionBank) (g : Nat → List String),
    b.chap_num_to_ids = L.map (fun m => (m, g m)) →
    (pyLookup b.chapters n).isSome = true →
    (∀ k ∈ ks, findChapterFor D k = some n) →
    (∀ k ∈ ks, Question.make (serQ dbdir (qD qb k)).qid
      (serQ dbdir (qD qb k)).question (serQ dbdir (qD qb k)).answers
      (serQ dbdir (qD qb k)).correct_answer
      (some (serQ dbdir (qD qb k)).img_path) = .ok (reQ dbdir qb k)) →
    (∀ k ∈ ks, pyLookup b.id_to_q k = none) →
    ks.Nodup →
    (∀ k ∈ ks, k ∉ g n) →
    (ks.map (fun k => (k, serQ dbdir (qD qb k)))).foldlM (fun b p =>
        match findChapterFor D p.1 with
        | none => pure b
        | some n => do
          let q ← Question.make p.2.qid p.2.question p.2.answers
            p.2.correct_answer (some p.2.img_path)
          b.add_question q n) b =
      .ok ⟨b.img_dir, b.chapters,
           L.map (fun m => (m, if m = n then g m ++ ks else g m)),
           b.id_to_q ++ ks.map (fun k => (k, reQ dbdir qb k))⟩ := by
  induction ks with
  | nil =>
    intro b g hcq _ _ _ _ _ _
    rw [List.map_nil, List.foldlM_nil, List.map_nil, List.append_nil]
    have : L.map (fun m => (m, if m = n then g m ++ [] else g m)) =
        L.map (fun m => (m, g m)) := by
      apply List.map_congr_left
      intro m _
      by_cases hm : m = n <;> simp [hm]
    rw [this, ← hcq]
    rfl
  | cons k ks' ih =>
    intro b g hcq hch hfind hmake hfresh hnd hgn
    rw [List.map_cons, List.foldlM_cons]
    have hkm := List.mem_cons_self k ks'
    have hstep : (match findChapterFor D k with
        | none => pure b
        | some n => do
          let q ← Question.make (serQ dbdir (qD qb k)).qid
            (serQ dbdir (qD qb k)).question (serQ dbdir (qD qb k)).answers
            (serQ dbdir (qD qb k)).correct_answer
            (some (serQ dbdir (qD qb k)).img_path)
          b.add_question q n) =
        .ok { b with
          id_to_q := b.id_to_q ++ [(k, reQ dbdir qb k)],
          chap_num_to_ids := updateAssoc b.chap_num_to_ids n
            (fun l => pySetAdd l k) } := by
      rw [hfind k hkm]
      simp only [hmake k hkm, except_bind_ok]
      unfold QuestionBank.add_question
      have hnotnone : (pyLookup b.chapters n).isNone = false := by
        cases hl : pyLookup b.chapters n with
        | some d => rfl
        | none => rw [hl] at hch; cases hch
      rw [hnotnone]
      have hqid : (reQ dbdir qb k).qid = k := rfl
      rw [hqid, hfresh k hkm]
      rfl
    rw [hstep, except_bind_ok]
    have hg1 : updateAssoc b.chap_num_to_ids n (fun l => pySetAdd l k) =
        L.map (fun m => (m, if m = n then g m ++ [k] else g m)) := by
      rw [hcq, updateAssoc_map_of_nodup]
      apply List.map_congr_left
      intro m _
      by_cases hm : m = n
      · subst hm
        simp [pySetAdd_of_not_mem _ _ (hgn k hkm)]
      · simp [hm]
    have hstep2 := ih { b with
        id_to_q := b.id_to_q ++ [(k, reQ dbdir qb k)],
        chap_num_to_ids := updateAssoc b.chap_num_to_ids n
          (fun l => pySetAdd l k) }
      (fun m => if m = n then g m ++ [k] else g m)
      (by
        show updateAssoc b.chap_num_to_ids n (fun l => pySetAdd l k) = _
        rw [hg1])
      hch
      (fun k' hk' => hfind k' (List.mem_cons_of_mem k hk'))
      (fun k' hk' => hmake k' (List.mem_cons_of_mem k hk'))
      (fun k' hk' => by
        show pyLookup (b.id_to_q ++ [(k, reQ dbdir qb k)]) k' = none
        rw [pyLookup_append, hfresh k' (List.mem_cons_of_mem k hk')]
        rw [pyLookup_cons, pyLookup_nil]
        have hne : (k == k') = false := by
          have : k ≠ k' := fun he =>
            (List.nodup_cons.mp hnd).1 (he ▸ hk')
          simpa using this
        simp [hne])
      (List.nodup_cons.mp hnd).2
      (fun k' hk' => by
        show k' ∉ (if n = n then g n ++ [k] else g n)
        rw [if_pos (rfl : n = n)]
        intro hmem
        rcases List.mem_append.mp hmem with hmem' | hmem'
        · exact hgn k' (List.mem_cons_of_mem k hk') hmem'
        · exact (List.nodup_cons.mp hnd).1
            ((List.mem_singleton.mp hmem') ▸ hk'))
    rw [hstep2]
    have hmap : L.map (fun m => (m,
        if m = n then (if m = n then g m ++ [k] else g m) ++ ks'
        else if m = n then g m ++ [k] else g m)) =
        L.map (fun m => (m, if m = n then g m ++ k :: ks' else g m)) := by
      apply List.map_congr_left
      intro m _
      by_cases hm : m = n
      · subst hm
        simp [List.append_assoc]
      · simp [hm]
    rw [hmap]
    simp [List.append_assoc]

/-- The full question-insertion loop of `_deserialize_question_bank` over
the serialized entries of all chapters, characterized. -/
theorem deserialize_questions_go (dbdir : String) (qb : QuestionBank)
    (D : List (Nat × List String)) (L : List Nat) :
    ∀ (Lp : List Nat) (b : QuestionBank) (g : Nat → List String),
    b.chap_num_to_ids = L.map (fun m => (m, g m)) →
    (∀ n ∈ Lp, (pyLookup b.chapters n).isSome = true) →
    (∀ n ∈ Lp, ∀ k ∈ qidsD qb n, findChapterFor D k = some n) →
    (∀ n ∈ Lp, ∀ k ∈ qidsD qb n, Question.make (serQ dbdir (qD qb k)).qid
      (serQ dbdir (qD qb k)).question (serQ dbdir (qD qb k)).answers
      (serQ dbdir (qD qb k)).correct_answer
      (some (serQ dbdir (qD qb k)).img_path) = .ok (reQ dbdir qb k)) →
    (∀ n ∈ Lp, ∀ k ∈ qidsD qb n, pyLookup b.id_to_q k = none) →
    (∀ n ∈ Lp, (qidsD qb n).Nodup) →
    (∀ n ∈ Lp, g n = []) →
    List.Pairwise (fun a c => ∀ k ∈ qidsD qb a, k ∉ qidsD qb c) Lp →
    Lp.Nodup →
    (Lp.flatMap (fun n => (qidsD qb n).map
        (fun k => (k, serQ dbdir (qD qb k))))).foldlM (fun b p =>
        match findChapterFor D p.1 with
        | none => pure b
        | some n => do
          let q ← Question.make p.2.qid p.2.question p.2.answers
            p.2.correct_answer (some p.2.img_path)
          b.add_question q n) b =
      .ok ⟨b.img_dir, b.chapters,
           L.map (fun m => (m, if m ∈ Lp then qidsD qb m else g m)),
           b.id_to_q ++ Lp.flatMap (fun n => (qidsD qb n).map
             (fun k => (k, reQ dbdir qb k)))⟩ := by
  intro Lp
  induction Lp with
  | nil =>
    intro b g hcq _ _ _ _ _ _ _ _
    rw [List.flatMap_nil, List.foldlM_nil, List.flatMap_nil, List.append_nil]
    have hmap : L.map (fun m => (m, if m ∈ ([] : List Nat) then qidsD qb m
        else g m)) = L.map (fun m => (m, g m)) := by
      apply List.map_congr_left
      intro m _
      simp
    rw [hmap, ← hcq]
    rfl
  | cons n Lp' ih =>
    intro b g hcq hch hfind hmake hfresh hqnd hg hpw hnd
    have hmemn := List.mem_cons_self n Lp'
    rw [List.flatMap_cons, exceptFoldlM_append]
    have hchap := deserialize_questions_chapter dbdir qb D L n (qidsD qb n)
      b g hcq (hch n hmemn) (hfind n hmemn) (hmake n hmemn) (hfresh n hmemn)
      (hqnd n hmemn) (fun k hk => by rw [hg n hmemn]; exact List.not_mem_nil k)
    rw [hchap, except_bind_ok]
    have hg1eq : L.map (fun m => (m, if m = n then g m ++ qidsD qb n else g m))
        = L.map (fun m => (m, if m = n then qidsD qb n else g m)) := by
      apply List.map_congr_left
      intro m _
      by_cases hm : m = n
      · rw [if_pos hm, if_pos hm]
        have hgm : g m = [] := by rw [hm]; exact hg n hmemn
        rw [hgm, List.nil_append]
      · simp [hm]
    have hstep := ih ⟨b.img_dir, b.chapters,
        L.map (fun m => (m, if m = n then g m ++ qidsD qb n else g m)),
        b.id_to_q ++ (qidsD qb n).map (fun k => (k, reQ dbdir qb k))⟩
      (fun m => if m = n then qidsD qb n else g m)
      (by
        show L.map (fun m => (m, if m = n then g m ++ qidsD qb n else g m)) = _
        rw [hg1eq])
      (fun m hm => hch m (List.mem_cons_of_mem n hm))
      (fun m hm => hfind m (List.mem_cons_of_mem n hm))
      (fun m hm => hmake m (List.mem_cons_of_mem n hm))
      (fun m hm k hk => by
        show pyLookup (b.id_to_q ++
          (qidsD qb n).map (fun k => (k, reQ dbdir qb k))) k = none
        rw [pyLookup_append, hfresh m (List.mem_cons_of_mem n hm) k hk]
        have hkn : k ∉ qidsD qb n := fun hkn =>
          (List.pairwise_cons.mp hpw).1 m hm k hkn hk
        exact pyLookup_map_not_mem _ _ _ hkn)
      (fun m hm => hqnd m (List.mem_cons_of_mem n hm))
      (fun m hm => by
        have hmn : m ≠ n := fun he =>
          (List.nodup_cons.mp hnd).1 (he ▸ hm)
        show (if m = n then qidsD qb n else g m) = []
        rw [if_neg hmn]
        exact hg m (List.mem_cons_of_mem n hm))
      (List.pairwise_cons.mp hpw).2
      (List.nodup_cons.mp hnd).2
    rw [hstep]
    have hmap2 : L.map (fun m => (m, if m ∈ Lp' then qidsD qb m
        else if m = n then qidsD qb n else g m)) =
        L.map (fun m => (m, if m ∈ n :: Lp' then qidsD qb m else g m)) := by
      apply List.map_congr_left
      intro m _
      by_cases hm1 : m ∈ Lp'
      · simp [hm1]
      · by_cases hm2 : m = n
        · subst hm2
          simp [hm1]
        · simp [hm1, hm2]
    rw [hmap2]
    rw [List.flatMap_cons]
    simp [List.append_assoc]

/-- `_deserialize_question_bank` on the canonical serialized image of a
well-formed non-empty bank: the chapters come back with their descriptions,
each chapter's id list is rebuilt exactly, and every question is rebuilt
with the persistence image path. -/
theorem deserializeBank_eq (dbdir : String) (qb : QuestionBank)
    (h : BankWF qb) (hne : qb.get_all_chapter_num ≠ []) :
    deserializeBank dbdir
      ⟨qb.get_all_chapter_num.map (fun n => (n, descD qb n)),
       qb.get_all_chapter_num.map (fun n => (n, qidsD qb n)),
       qb.get_all_chapter_num.flatMap (fun n => (qidsD qb n).map
         (fun k => (k, serQ dbdir (qD qb k)))),
       dbdir⟩ =
      .ok ⟨dbdir,
           qb.get_all_chapter_num.map (fun n => (n, descD qb n)),
           qb.get_all_chapter_num.map (fun n => (n, qidsD qb n)),
           qb.get_all_chapter_num.flatMap (fun n => (qidsD qb n).map
             (fun k => (k, reQ dbdir qb k)))⟩ := by
  obtain ⟨hnd, hkeys, hqnd, hpw, hqund, hreg, hcov, hval⟩ := h
  have hperm : qb.get_all_chapter_num.Perm (qb.chapters.map Prod.fst) :=
    List.perm_insertionSort _ _
  have hLnd : qb.get_all_chapter_num.Nodup := hperm.symm.nodup hnd
  have hcqnd : (qb.chap_num_to_ids.map Prod.fst).Nodup := by
    rw [hkeys]; exact hnd
  have hcqmem : ∀ n ∈ qb.get_all_chapter_num,
      n ∈ qb.chap_num_to_ids.map Prod.fst := by
    intro n hn
    rw [hkeys]
    exact hperm.mem_iff.mp hn
  have hcqsome : ∀ n ∈ qb.get_all_chapter_num,
      pyLookup qb.chap_num_to_ids n = some (qidsD qb n) :=
    fun n hn => pyLookup_eq_some_getD _ _ _ (hcqmem n hn)
  have hentry : ∀ n ∈ qb.get_all_chapter_num,
      (n, qidsD qb n) ∈ qb.chap_num_to_ids :=
    fun n hn => pyLookup_eq_some_mem (hcqsome n hn)
  have hqndL : ∀ n ∈ qb.get_all_chapter_num, (qidsD qb n).Nodup :=
    fun n hn => hqnd _ (hentry n hn)
  have hqsome : ∀ n ∈ qb.get_all_chapter_num, ∀ k ∈ qidsD qb n,
      pyLookup qb.id_to_q k = some (qD qb k) := by
    intro n hn k hk
    exact pyLookup_eq_some_getD _ _ _ (hreg _ (hentry n hn) k hk)
  have hvalL : ∀ n ∈ qb.get_all_chapter_num, ∀ k ∈ qidsD qb n,
      (qD qb k).qid = k ∧
      Question.make (qD qb k).qid (qD qb k).question (qD qb k).answers
        (qD qb k).correct_answer (qD qb k).img_path = .ok (qD qb k) := by
    intro n hn k hk
    exact hval (k, qD qb k) (pyLookup_eq_some_mem (hqsome n hn k hk))
  have hpwL : List.Pairwise (fun a b => ∀ k ∈ qidsD qb a, k ∉ qidsD qb b)
      qb.get_all_chapter_num := by
    have h1 : List.Pairwise (fun p q : Nat × List String =>
        ∀ k ∈ qidsD qb p.1, k ∉ qidsD qb q.1) qb.chap_num_to_ids := by
      refine hpw.imp_of_mem ?_
      intro p q hp hq hr k hkp
      have hp1 : qidsD qb p.1 = p.2 := by
        unfold qidsD
        rw [pyLookup_of_mem_nodup _ _ hcqnd hp]
        rfl
      have hq1 : qidsD qb q.1 = q.2 := by
        unfold qidsD
        rw [pyLookup_of_mem_nodup _ _ hcqnd hq]
        rfl
      rw [hp1] at hkp
      rw [hq1]
      exact hr k hkp
    have h2 : List.Pairwise (fun a b => ∀ k ∈ qidsD qb a, k ∉ qidsD qb b)
        (qb.chap_num_to_ids.map Prod.fst) := List.pairwise_map.mpr h1
    rw [hkeys] at h2
    have hsym : ∀ {a b : Nat},
        (∀ k ∈ qidsD qb a, k ∉ qidsD qb b) → ∀ k ∈ qidsD qb b, k ∉ qidsD qb a :=
      fun hab k hkb hka => hab k hka hkb
    exact (hperm.pairwise_iff @hsym).mpr h2
  have hfind : ∀ n ∈ qb.get_all_chapter_num, ∀ k ∈ qidsD qb n,
      findChapterFor (qb.get_all_chapter_num.map
        (fun m => (m, qidsD qb m))) k = some n := by
    intro n hn k hk
    refine findChapterFor_canonical _ _ k n hn hk ?_
    intro m hm hkm
    by_contra hmn
    have hsym2 : Symmetric (fun a b => ∀ k ∈ qidsD qb a, k ∉ qidsD qb b) :=
      fun a b hab k hkb hka => hab k hka hkb
    exact (hpwL.forall hsym2 hm hn hmn) k hkm hk
  have hmake : ∀ n ∈ qb.get_all_chapter_num, ∀ k ∈ qidsD qb n,
      Question.make (serQ dbdir (qD qb k)).qid (serQ dbdir (qD qb k)).question
        (serQ dbdir (qD qb k)).answers (serQ dbdir (qD qb k)).correct_answer
        (some (serQ dbdir (qD qb k)).img_path) = .ok (reQ dbdir qb k) := by
    intro n hn k hk
    obtain ⟨hqid, hmk⟩ := hvalL n hn k hk
    have hre := remake_ok (qD qb k) (some (dbdir ++ (qD qb k).qid)) hmk
    show Question.make (qD qb k).qid (qD qb k).question (qD qb k).answers
      (qD qb k).correct_answer (some (dbdir ++ (qD qb k).qid)) = _
    rw [hre]
    unfold reQ
    rw [hqid]
  -- phase A: the chapters are re-added
  have hkeysA : ((qb.get_all_chapter_num.map (fun n => (n, descD qb n))).map
      Prod.fst).Nodup := by
    rw [List.map_map]
    have hcomp : (Prod.fst ∘ fun n : Nat => (n, descD qb n)) = id := rfl
    rw [hcomp, List.map_id]
    exact hLnd
  have hphaseA := deserialize_chapters_go
    (qb.get_all_chapter_num.map (fun n => (n, descD qb n)))
    (QuestionBank.empty dbdir) hkeysA
    (fun p _ => pyLookup_nil p.1)
  -- phase B: the questions are re-added
  have hcq0 : ((QuestionBank.empty dbdir).chap_num_to_ids ++
      (qb.get_all_chapter_num.map (fun n => (n, descD qb n))).map
        (fun p => (p.1, []))) =
      qb.get_all_chapter_num.map (fun m => (m, (fun _ => ([] : List String)) m)) := by
    show [] ++ _ = _
    rw [List.nil_append, List.map_map]
    rfl
  have hphaseB := deserialize_questions_go dbdir qb
    (qb.get_all_chapter_num.map (fun m => (m, qidsD qb m)))
    qb.get_all_chapter_num qb.get_all_chapter_num
    ⟨(QuestionBank.empty dbdir).img_dir,
     (QuestionBank.empty dbdir).chapters ++
       qb.get_all_chapter_num.map (fun n => (n, descD qb n)),
     (QuestionBank.empty dbdir).chap_num_to_ids ++
       (qb.get_all_chapter_num.map (fun n => (n, descD qb n))).map
         (fun p => (p.1, [])),
     (QuestionBank.empty dbdir).id_to_q⟩
    (fun _ => ([] : List String))
    hcq0
    (fun n hn => by
      show (pyLookup ([] ++ qb.get_all_chapter_num.map
        (fun n => (n, descD qb n))) n).isSome = true
      rw [List.nil_append, pyLookup_map_mem _ _ _ hn]
      rfl)
    hfind hmake
    (fun n _ k _ => pyLookup_nil k)
    hqndL
    (fun _ _ => rfl)
    hpwL hLnd
  -- assemble
  unfold deserializeBank
  have hnotempty : (qb.get_all_chapter_num.map
      (fun n => (n, descD qb n))).isEmpty = false := by
    cases hL : qb.get_all_chapter_num with
    | nil => exact absurd hL hne
    | cons a t => rfl
  rw [hnotempty]
  simp only [Bool.false_eq_true, if_false]
  rw [hphaseA, except_bind_ok]
  rw [hphaseB, except_bind_ok]
  have hfinal : qb.get_all_chapter_num.map (fun m =>
      (m, if m ∈ qb.get_all_chapter_num then qidsD qb m
        else (fun _ => ([] : List String)) m)) =
      qb.get_all_chapter_num.map (fun n => (n, qidsD qb n)) := by
    apply List.map_congr_left
    intro m hm
    rw [if_pos hm]
  rw [hfinal]
  show Except.ok _ = _
  rfl

theorem pyLookup_forall_some {α β : Type} [BEq α] [LawfulBEq α]
    {l : List (α × β)} (f : α → β) (hf : ∀ p ∈ l, p.2 = f p.1) (k : α)
    (hk : k ∈ l.map Prod.fst) : pyLookup l k = some (f k) := by
  induction l with
  | nil => cases hk
  | cons p t ih =>
    rw [pyLookup_cons]
    cases hp : p.1 == k with
    | true =>
      have h1 : p.1 = k := by simpa using hp
      simp only [if_true]
      rw [hf p (List.mem_cons_self p t), h1]
    | false =>
      simp only [Bool.false_eq_true, if_false]
      have hk' : k ∈ t.map Prod.fst := by
        rcases List.mem_cons.mp hk with he | hm
        · exact absurd (by simpa using hp : p.1 ≠ k) (by simp [he])
        · exact hm
      exact ih (fun q hq => hf q (List.mem_cons_of_mem p hq)) hk'

/-- C7 (amended): serializing a populated well-formed bank and
deserializing the result yields a bank with identical chapter numbers,
identical chapter descriptions, identical per-chapter question-id sets, and
per-question field values identical except that the image path is replaced
by the persistence path — the database image directory string concatenated
directly with the question id (no separator, no `.webp` extension). -/
theorem c7_amended (dbdir : String) (qb : QuestionBank) (h : BankWF qb) :
    ∃ qb', roundTrip dbdir qb = .ok qb' ∧
      qb'.img_dir = dbdir ∧
      (∀ n, n ∈ qb'.chapters.map Prod.fst ↔ n ∈ qb.chapters.map Prod.fst) ∧
      (∀ n, pyLookup qb'.chapters n = pyLookup qb.chapters n) ∧
      (∀ n, pyLookup qb'.chap_num_to_ids n = pyLookup qb.chap_num_to_ids n) ∧
      (∀ k q, pyLookup qb.id_to_q k = some q →
        pyLookup qb'.id_to_q k =
          some ⟨k, q.question, q.answers, q.correct_answer,
            some (dbdir ++ k)⟩) ∧
      (∀ k, pyLookup qb.id_to_q k = none → pyLookup qb'.id_to_q k = none) := by
  obtain ⟨hnd, hkeys, hqnd, hpw, hqund, hreg, hcov, hval⟩ := h
  have hperm : qb.get_all_chapter_num.Perm (qb.chapters.map Prod.fst) :=
    List.perm_insertionSort _ _
  by_cases hL : qb.get_all_chapter_num = []
  · -- empty bank: nothing to round-trip
    have hch : qb.chapters = [] := by
      have : qb.chapters.map Prod.fst = [] := by
        have hp2 := hperm
        rw [hL] at hp2
        exact List.Perm.eq_nil hp2.symm
      exact List.map_eq_nil_iff.mp this
    have hcq : qb.chap_num_to_ids = [] := by
      have : qb.chap_num_to_ids.map Prod.fst = [] := by
        rw [hkeys, hch]
        rfl
      exact List.map_eq_nil_iff.mp this
    have hid : qb.id_to_q = [] := by
      cases hq : qb.id_to_q with
      | nil => rfl
      | cons p t =>
        obtain ⟨c, hc, _⟩ := hcov p (by rw [hq]; exact List.mem_cons_self p t)
        rw [hcq] at hc
        cases hc
    refine ⟨QuestionBank.empty dbdir, ?_, rfl, ?_, ?_, ?_, ?_, ?_⟩
    · unfold roundTrip
      rw [serializeBank_eq dbdir qb
        ⟨hnd, hkeys, hqnd, hpw, hqund, hreg, hcov, hval⟩]
      rw [hL]
      rfl
    · intro n
      rw [hch]
      rfl
    · intro n
      rw [hch]
      rfl
    · intro n
      rw [hcq]
      rfl
    · intro k q hkq
      rw [hid, pyLookup_nil] at hkq
      cases hkq
    · intro k _
      rfl
  · -- non-empty bank
    have hwf : BankWF qb := ⟨hnd, hkeys, hqnd, hpw, hqund, hreg, hcov, hval⟩
    have hLnd : qb.get_all_chapter_num.Nodup := hperm.symm.nodup hnd
    have hcqnd : (qb.chap_num_to_ids.map Prod.fst).Nodup := by
      rw [hkeys]; exact hnd
    refine ⟨⟨dbdir,
        qb.get_all_chapter_num.map (fun n => (n, descD qb n)),
        qb.get_all_chapter_num.map (fun n => (n, qidsD qb n)),
        qb.get_all_chapter_num.flatMap (fun n => (qidsD qb n).map
          (fun k => (k, reQ dbdir qb k)))⟩, ?_, rfl, ?_, ?_, ?_, ?_, ?_⟩
    · unfold roundTrip
      rw [serializeBank_eq dbdir qb hwf]
      show deserializeBank dbdir _ = _
      rw [deserializeBank_eq dbdir qb hwf hL]
    · intro n
      show n ∈ (qb.get_all_chapter_num.map
        (fun n => (n, descD qb n))).map Prod.fst ↔ _
      rw [List.map_map]
      have hcomp : (Prod.fst ∘ fun n : Nat => (n, descD qb n)) = id := rfl
      rw [hcomp, List.map_id]
      exact hperm.mem_iff
    · intro n
      by_cases hn : n ∈ qb.get_all_chapter_num
      · show pyLookup (qb.get_all_chapter_num.map
          (fun n => (n, descD qb n))) n = _
        rw [pyLookup_map_mem _ _ _ hn]
        exact (pyLookup_eq_some_getD _ _ _ (hperm.mem_iff.mp hn)).symm
      · show pyLookup (qb.get_all_chapter_num.map
          (fun n => (n, descD qb n))) n = _
        rw [pyLookup_map_not_mem _ _ _ hn]
        have : n ∉ qb.chapters.map Prod.fst := fun hm =>
          hn (hperm.mem_iff.mpr hm)
        exact ((pyLookup_eq_none_iff _ _).mpr this).symm
    · intro n
      by_cases hn : n ∈ qb.get_all_chapter_num
      · show pyLookup (qb.get_all_chapter_num.map
          (fun n => (n, qidsD qb n))) n = _
        rw [pyLookup_map_mem _ _ _ hn]
        have hmem : n ∈ qb.chap_num_to_ids.map Prod.fst := by
          rw [hkeys]
          exact hperm.mem_iff.mp hn
        exact (pyLookup_eq_some_getD _ _ _ hmem).symm
      · show pyLookup (qb.get_all_chapter_num.map
          (fun n => (n, qidsD qb n))) n = _
        rw [pyLookup_map_not_mem _ _ _ hn]
        have : n ∉ qb.chap_num_to_ids.map Prod.fst := fun hm =>
          hn (hperm.mem_iff.mpr (hkeys ▸ hm))
        exact ((pyLookup_eq_none_iff _ _).mpr this).symm
    · intro k q hkq
      have hqd : qD qb k = q := by
        unfold qD
        rw [hkq]
        rfl
      obtain ⟨c, hc, hkc⟩ := hcov (k, q) (pyLookup_eq_some_mem hkq)
      have hcL : c.1 ∈ qb.get_all_chapter_num := by
        apply hperm.mem_iff.mpr
        rw [← hkeys]
        exact List.mem_map_of_mem Prod.fst hc
      have hkq2 : k ∈ qidsD qb c.1 := by
        unfold qidsD
        rw [pyLookup_of_mem_nodup _ _ hcqnd hc]
        exact hkc
      show pyLookup (qb.get_all_chapter_num.flatMap (fun n =>
        (qidsD qb n).map (fun k => (k, reQ dbdir qb k)))) k = _
      rw [pyLookup_forall_some (reQ dbdir qb)]
      · rw [show reQ dbdir qb k =
          ⟨k, q.question, q.answers, q.correct_answer, some (dbdir ++ k)⟩ by
            unfold reQ
            rw [hqd]]
      · intro p hp
        obtain ⟨n, _, hp2⟩ := List.mem_flatMap.mp hp
        obtain ⟨k', _, hk'⟩ := List.mem_map.mp hp2
        rw [← hk']
      · rw [List.map_flatMap]
        apply List.mem_flatMap.mpr
        refine ⟨c.1, hcL, ?_⟩
        rw [List.map_map]
        have hcomp : (Prod.fst ∘ fun k : String => (k, reQ dbdir qb k)) = id := rfl
        rw [hcomp, List.map_id]
        exact hkq2
    · intro k hknone
      have hknotin : k ∉ qb.id_to_q.map Prod.fst :=
        (pyLookup_eq_none_iff _ _).mp hknone
      show pyLookup (qb.get_all_chapter_num.flatMap (fun n =>
        (qidsD qb n).map (fun k => (k, reQ dbdir qb k)))) k = none
      rw [pyLookup_eq_none_iff]
      rw [List.map_flatMap]
      intro hmem
      obtain ⟨n, hn, hk2⟩ := List.mem_flatMap.mp hmem
      rw [List.map_map] at hk2
      have hcomp : (Prod.fst ∘ fun k : String => (k, reQ dbdir qb k)) = id := rfl
      rw [hcomp, List.map_id] at hk2
      have hmem2 : n ∈ qb.chap_num_to_ids.map Prod.fst := by
        rw [hkeys]
        exact hperm.mem_iff.mp hn
      have hsome := pyLookup_eq_some_getD qb.chap_num_to_ids n ([] : List String) hmem2
      have hentry : (n, qidsD qb n) ∈ qb.chap_num_to_ids :=
        pyLookup_eq_some_mem hsome
      exact hknotin (hreg _ hentry k hk2)

/-- A small populated bank (one chapter, one true/false question without an
image). -/
def c7bank : QuestionBank :=
  ⟨"mem/", [(1, "第一章")], [(1, ["q1"])],
   [("q1", ⟨"q1", "题目", ["对", "错"], "对", none⟩)]⟩

/-- C7 (counterexample): the claim says the round-tripped image path has
the form `<image_dir>/<id>.webp`; but `_make_img_path` concatenates the
directory string and the id directly, so the loaded bank's question carries
the path `imgq1`, not `img/q1.webp`. -/
theorem c7_counterexample :
    roundTrip "img" c7bank = .ok ⟨"img", [(1, "第一章")], [(1, ["q1"])],
      [("q1", ⟨"q1", "题目", ["对", "错"], "对", some "imgq1"⟩)]⟩ ∧
    ("imgq1" : String) ≠ "img/q1.webp" :=
  ⟨by decide, by decide⟩

/-- A two-chapter bank with a four-choice image question and a true/false
question, chapters inserted out of numeric order. -/
def c7wbank : QuestionBank :=
  ⟨"mem/", [(2, "乙"), (1, "甲")], [(2, ["b1"]), (1, ["a1"])],
   [("b1", ⟨"b1", "问乙", ["对", "错"], "错", none⟩),
    ("a1", ⟨"a1", "问甲", ["甲", "乙", "丙", "丁"], "丙", some "mem/a1.webp"⟩)]⟩

/-- C7 (witness): the amended round-trip theorem applied to a concrete
well-formed bank. -/
theorem c7_witness :
    ∃ qb', roundTrip "db" c7wbank = .ok qb' ∧
      qb'.img_dir = "db" ∧
      (∀ n, n ∈ qb'.chapters.map Prod.fst ↔
        n ∈ c7wbank.chapters.map Prod.fst) ∧
      (∀ n, pyLookup qb'.chapters n = pyLookup c7wbank.chapters n) ∧
      (∀ n, pyLookup qb'.chap_num_to_ids n =
        pyLookup c7wbank.chap_num_to_ids n) ∧
      (∀ k q, pyLookup c7wbank.id_to_q k = some q →
        pyLookup qb'.id_to_q k =
          some ⟨k, q.question, q.answers, q.correct_answer,
            some ("db" ++ k)⟩) ∧
      (∀ k, pyLookup c7wbank.id_to_q k = none →
        pyLookup qb'.id_to_q k = none) :=
  c7_amended "db" c7wbank (by decide)

/-- C10: serialization assigns every question the image path
`<db image dir> ++ <id>` — direct string concatenation, no separator, no
extension, also for questions whose in-memory image path is `None` — and
consequently every question of a bank loaded from a save carries an image
reference of exactly that form. -/
theorem c10_serialized_img_path (dbdir : String) (qb : QuestionBank)
    (h : BankWF qb) :
    (∀ d, serializeBank dbdir qb = .ok d →
      ∀ p ∈ d.questions, p.2.img_path = dbdir ++ p.1) ∧
    (∀ qb', roundTrip dbdir qb = .ok qb' →
      ∀ p ∈ qb'.id_to_q, p.2.img_path = some (dbdir ++ p.1)) := by
  obtain ⟨hnd, hkeys, hqnd, hpw, hqund, hreg, hcov, hval⟩ := h
  have hwf : BankWF qb := ⟨hnd, hkeys, hqnd, hpw, hqund, hreg, hcov, hval⟩
  have hperm : qb.get_all_chapter_num.Perm (qb.chapters.map Prod.fst) :=
    List.perm_insertionSort _ _
  have hcqnd : (qb.chap_num_to_ids.map Prod.fst).Nodup := by
    rw [hkeys]; exact hnd
  have hqidOf : ∀ n ∈ qb.get_all_chapter_num, ∀ k ∈ qidsD qb n,
      (qD qb k).qid = k := by
    intro n hn k hk
    have hmem2 : n ∈ qb.chap_num_to_ids.map Prod.fst := by
      rw [hkeys]
      exact hperm.mem_iff.mp hn
    have hentry : (n, qidsD qb n) ∈ qb.chap_num_to_ids :=
      pyLookup_eq_some_mem (pyLookup_eq_some_getD _ _ ([] : List String) hmem2)
    have hkid : k ∈ qb.id_to_q.map Prod.fst := hreg _ hentry k hk
    have hsome := pyLookup_eq_some_getD qb.id_to_q k
      (⟨"", "", [], "", none⟩ : Question) hkid
    exact (hval (k, qD qb k) (pyLookup_eq_some_mem hsome)).1
  constructor
  · intro d hd p hp
    rw [serializeBank_eq dbdir qb hwf] at hd
    injection hd with hd2
    rw [← hd2] at hp
    obtain ⟨n, hn, hp2⟩ := List.mem_flatMap.mp hp
    obtain ⟨k, hk, hk2⟩ := List.mem_map.mp hp2
    rw [← hk2]
    show makeImgPath dbdir (qD qb k) = dbdir ++ k
    unfold makeImgPath
    rw [hqidOf n hn k hk]
  · intro qb' hq p hp
    unfold roundTrip at hq
    rw [serializeBank_eq dbdir qb hwf] at hq
    by_cases hL : qb.get_all_chapter_num = []
    · rw [hL] at hq
      replace hq : Except.ok (QuestionBank.empty dbdir) = .ok qb' := hq
      injection hq with hq2
      rw [← hq2] at hp
      cases hp
    · replace hq : deserializeBank dbdir
        ⟨qb.get_all_chapter_num.map (fun n => (n, descD qb n)),
         qb.get_all_chapter_num.map (fun n => (n, qidsD qb n)),
         qb.get_all_chapter_num.flatMap (fun n => (qidsD qb n).map
           (fun k => (k, serQ dbdir (qD qb k)))),
         dbdir⟩ = .ok qb' := hq
      rw [deserializeBank_eq dbdir qb hwf hL] at hq
      injection hq with hq2
      rw [← hq2] at hp
      obtain ⟨n, hn, hp2⟩ := List.mem_flatMap.mp hp
      obtain ⟨k, hk, hk2⟩ := List.mem_map.mp hp2
      rw [← hk2]
      rfl

/-- A bank whose only question has no in-memory image. -/
def c10bank : QuestionBank :=
  ⟨"mem/", [(1, "章")], [(1, ["q1"])],
   [("q1", ⟨"q1", "题", ["对", "错"], "对", none⟩)]⟩

/-- C10 (witness): the serialized entry of an image-less question still
carries the concatenated path `imgq1`, and the loaded bank's questions all
carry such paths. -/
theorem c10_witness :
    serializeBank "img" c10bank = .ok ⟨[(1, "章")], [(1, ["q1"])],
      [("q1", ⟨"q1", "题", ["对", "错"], "对", "imgq1"⟩)], "img"⟩ ∧
    (∀ qb', roundTrip "img" c10bank = .ok qb' →
      ∀ p ∈ qb'.id_to_q, p.2.img_path = some ("img" ++ p.1)) :=
  ⟨by decide, (c10_serialized_img_path "img" c10bank (by decide)).2⟩
